import Mathlib

/-
  Verification development for `optitrack/csv_reader.py`, a parser for
  Optitrack Motive CSV exports (format versions 1.2 / 1.21).

  The Python source is shallowly embedded below.  Modelling conventions:
  * Python floats are modelled as rationals; the `float(...)` conversion is
    modelled for plain decimal literals (optional sign, digits, optional
    fractional part), which covers every value format the parser's inputs use.
  * Python lists are Lean lists; Python indexing (`l[i]`, with negative-index
    wrap-around and `IndexError` out of range) is modelled by `pyGet`/`pySet`.
  * The bound setter methods stored in `ColumnMapping` tuples are
    defunctionalised: a mapping stores the label of the rigid body the setter
    was bound to (labels are the unique keys of the `rigid_bodies` dict)
    together with a `SetterKind` tag.
  * Exceptions (assertion failures, `IndexError`, `ValueError`, and
    `StopIteration` escaping from `next`) are modelled with `Except` for the
    header phase and with an explicit `state × Option error` result for the
    data phase, so that the mutated state at the moment of failure is visible.
-/

namespace Optitrack

/-! ### Python primitives -/

/-- Resolution of a Python list index: negative indices wrap around once. -/
def pyIdx (len : Nat) (i : Int) : Int :=
  if i < 0 then i + len else i

/-- Python list read `l[i]`: negative indices wrap around once; any other
out-of-range index raises `IndexError`. -/
def pyGet {α : Type} (l : List α) (i : Int) : Except String α :=
  if h : 0 ≤ pyIdx l.length i ∧ (pyIdx l.length i).toNat < l.length then
    Except.ok (l.get ⟨(pyIdx l.length i).toNat, h.2⟩)
  else Except.error "IndexError: list index out of range"

/-- Python list element assignment `l[i] = a`, same index semantics. -/
def pySet {α : Type} (l : List α) (i : Int) (a : α) : Except String (List α) :=
  if 0 ≤ pyIdx l.length i ∧ (pyIdx l.length i).toNat < l.length then
    Except.ok (l.set (pyIdx l.length i).toNat a)
  else Except.error "IndexError: list index out of range"

/-- Numeric value of a digit string (assuming all characters are digits). -/
def natVal (cs : List Char) : Nat :=
  cs.foldl (fun n c => 10 * n + (c.toNat - 48)) 0

/-- Python `int(s)` on a string: optional sign followed by digits. -/
def pyInt (s : String) : Except String Int :=
  let cs := s.data
  let sgn : Int := match cs with | '-' :: _ => -1 | _ => 1
  let ds := match cs with | '-' :: r => r | '+' :: r => r | _ => cs
  if ds ≠ [] ∧ ds.all Char.isDigit then Except.ok (sgn * (natVal ds : Int))
  else Except.error ("ValueError: invalid literal for int with base 10: " ++ s)

/-- Python `float(s)` on a decimal literal: optional sign, digits, optional
fractional part; the value of `±w.f` is `±(w * 10^|f| + f) / 10^|f|`.
(Exponent and inf/nan forms never occur in this format.) -/
def pyFloat (s : String) : Except String ℚ :=
  let cs := s.data
  let sgn : Int := match cs with | '-' :: _ => -1 | _ => 1
  let ds := match cs with | '-' :: r => r | '+' :: r => r | _ => cs
  let w := ds.takeWhile (fun c => c ≠ '.')
  let r := ds.dropWhile (fun c => c ≠ '.')
  let f := match r with | '.' :: f => f | _ => []
  if (w ≠ [] ∨ f ≠ []) ∧ w.all Char.isDigit ∧ f.all Char.isDigit ∧ r.length ≤ f.length + 1 then
    Except.ok (mkRat (sgn * (natVal w * 10 ^ f.length + natVal f : Nat)) (10 ^ f.length))
  else Except.error ("ValueError: could not convert string to float: " ++ s)

/-! ### CSVReader.next : the line tokenizer -/

/-- `str.rstrip()`: drop trailing whitespace characters. -/
def rstripChars (cs : List Char) : List Char :=
  (cs.reverse.dropWhile Char.isWhitespace).reverse

/-- `line.replace('"','')`: remove every quote character. -/
def removeQuotes (cs : List Char) : List Char :=
  cs.filter (fun c => c ≠ '"')

/-- `str.split(',')`: split on every comma; n commas yield n+1 fields. -/
def splitOnComma (cs : List Char) : List (List Char) :=
  match cs with
  | [] => [[]]
  | c :: rest =>
    if c = ',' then [] :: splitOnComma rest
    else
      match splitOnComma rest with
      | [] => [[c]]
      | f :: fs => (c :: f) :: fs

/-- `CSVReader.next`: strip trailing whitespace; a blank line yields `[]`;
otherwise remove all quote characters and split on commas. -/
def tokenize (line : String) : List String :=
  if rstripChars line.data = [] then []
  else (splitOnComma (removeQuotes (rstripChars line.data))).map fun cs => String.mk cs

/-! ### Data model -/

instance {ε α : Type} [DecidableEq ε] [DecidableEq α] : DecidableEq (Except ε α) :=
  fun a b =>
    match a, b with
    | Except.error e1, Except.error e2 =>
      if h : e1 = e2 then isTrue (by rw [h]) else isFalse (by intro hh; cases hh; exact h rfl)
    | Except.ok a1, Except.ok a2 =>
      if h : a1 = a2 then isTrue (by rw [h]) else isFalse (by intro hh; cases hh; exact h rfl)
    | Except.error _, Except.ok _ => isFalse (by intro hh; cases hh)
    | Except.ok _, Except.error _ => isFalse (by intro hh; cases hh)

/-- Which bound setter method a `ColumnMapping` stores. -/
inductive SetterKind : Type
  | position
  | rotation
deriving DecidableEq, Repr

/-- `ColumnMapping = namedtuple('ColumnMapping', ['setter', 'axis', 'column'])`.
The bound setter method is represented by the label of the rigid body it was
bound to plus the kind tag. -/
structure ColumnMapping : Type where
  target : String
  kind : SetterKind
  axis : Nat
  column : Nat
deriving DecidableEq, Repr

/-- class RigidBody -/
structure RigidBody : Type where
  label : String
  ID : String
  positions : List (Option (List ℚ))
  rotations : List (Option (List ℚ))
  times : List ℚ
deriving DecidableEq, Repr

/-- class Take (user-accessible properties plus raw header state). -/
structure Take : Type where
  frame_rate : ℚ
  rotation_type : Option String
  units : String
  rigid_bodies : List (String × RigidBody)
  raw_info : List (String × String)
  raw_types : List String
  raw_labels : List String
  raw_fields : List String
  raw_axes : List String
  ignored_labels : List String
  column_map : List ColumnMapping
deriving DecidableEq, Repr

/-- `Take.__init__`. -/
def Take.init : Take :=
  ⟨120, some "Quaternion", "Meters", [], [], [], [], [], [], [], []⟩

/-- Python dict read `d.get(k)` on an insertion-ordered association list. -/
def lookup {α : Type} (k : String) : List (String × α) → Option α
  | [] => none
  | p :: rest => if p.1 = k then some p.2 else lookup k rest

/-- Python dict write `d[k] = v`. -/
def upsert (k v : String) : List (String × String) → List (String × String)
  | [] => [(k, v)]
  | p :: rest => if p.1 = k then (k, v) :: rest else p :: upsert k v rest

/-- In-place mutation of the body object stored under a label. -/
def updateBody (k : String) (b : RigidBody) :
    List (String × RigidBody) → List (String × RigidBody)
  | [] => []
  | p :: rest => if p.1 = k then (k, b) :: rest else p :: updateBody k b rest

/-! ### RigidBody methods -/

/-- `RigidBody._add_frame`. -/
def RigidBody.add_frame (b : RigidBody) (t : ℚ) : RigidBody :=
  { b with times := b.times ++ [t],
           positions := b.positions ++ [none],
           rotations := b.rotations ++ [none] }

/-- Common body of `_set_position` / `_set_rotation` (they differ only in the
target list and the zero vector): if the value is non-empty, lazily allocate a
zero vector at `xs[frame]` and then assign `float(value)` at the axis slot.
The returned option is the exception raised, if any; the returned list is the
state at that moment (the lazy allocation can persist past a later failure). -/
def set_vec (zero : List ℚ) (xs : List (Option (List ℚ))) (frame : Int)
    (axis : Nat) (value : String) : List (Option (List ℚ)) × Option String :=
  if value = "" then (xs, none)
  else
    match pyGet xs frame with
    | Except.error e => (xs, some e)
    | Except.ok cur =>
      match (match cur with
             | none => pySet xs frame (some zero)
             | some _ => Except.ok xs) with
      | Except.error e => (xs, some e)
      | Except.ok xs1 =>
        match pyFloat value with
        | Except.error e => (xs1, some e)
        | Except.ok v =>
          match pyGet xs1 frame with
          | Except.error e => (xs1, some e)
          | Except.ok none => (xs1, some "TypeError: NoneType does not support item assignment")
          | Except.ok (some vec) =>
            match pySet vec (axis : Int) v with
            | Except.error e => (xs1, some e)
            | Except.ok vec2 =>
              match pySet xs1 frame (some vec2) with
              | Except.error e => (xs1, some e)
              | Except.ok xs2 => (xs2, none)

/-- `RigidBody._set_position`. -/
def RigidBody.set_position (b : RigidBody) (frame : Int) (axis : Nat)
    (value : String) : RigidBody × Option String :=
  match set_vec [0, 0, 0] b.positions frame axis value with
  | (ps, e) => ({ b with positions := ps }, e)

/-- `RigidBody._set_rotation`. -/
def RigidBody.set_rotation (b : RigidBody) (frame : Int) (axis : Nat)
    (value : String) : RigidBody × Option String :=
  match set_vec [0, 0, 0, 0] b.rotations frame axis value with
  | (rs, e) => ({ b with rotations := rs }, e)

/-- `RigidBody.num_total_frames`. -/
def RigidBody.num_total_frames (b : RigidBody) : Nat := b.times.length

/-- `RigidBody.num_valid_frames`. -/
def RigidBody.num_valid_frames (b : RigidBody) : Nat :=
  (b.positions.filter (fun pt => pt ≠ none)).length

/-! ### Take._read_header -/

/-- The `(key, value)` pair loop over line 1: `range(len(line1)/2)` uses
Python 2 integer (floor) division, so a trailing unpaired field is dropped. -/
def store_pairs (info : List (String × String)) (line1 : List String) :
    List (String × String) :=
  (List.range (line1.length / 2)).foldl
    (fun acc i => upsert (line1.getD (2 * i) "") (line1.getD (2 * i + 1) "") acc) info

/-- Processing of header line 1: asserts, dict stores, and the extraction of
rotation type, frame rate and units, in source statement order.  Returns the
new raw_info dict, rotation type, frame rate and units. -/
def line1_info (line1 : List String) (info0 : List (String × String)) :
    Except String (List (String × String) × Option String × ℚ × String) :=
  match pyGet line1 0 with
  | Except.error e => Except.error e
  | Except.ok key0 =>
    if key0 = "Format Version" then
      match pyGet line1 1 with
      | Except.error e => Except.error e
      | Except.ok format =>
        if format = "1.21" ∨ format = "1.2" then
          if lookup "Rotation Type" (store_pairs info0 line1) = some "Quaternion" then
            match (match lookup "Export Frame Rate" (store_pairs info0 line1) with
                   | none => Except.ok (120 : ℚ)
                   | some s => pyFloat s) with
            | Except.error e => Except.error e
            | Except.ok fr =>
              Except.ok (store_pairs info0 line1,
                lookup "Rotation Type" (store_pairs info0 line1), fr,
                (lookup "Length Units" (store_pairs info0 line1)).getD "Meters")
          else Except.error "AssertionError: Only the Quaternion rotation type is supported"
        else Except.error ("AssertionError: Unsupported format version: " ++ format)
    else Except.error ("AssertionError: Unrecognized header cell: " ++ key0)

/-- The part of `Take._read_header` that consumes line 1. -/
def read_header_line1 (t : Take) (line1 : List String) : Except String Take :=
  match line1_info line1 t.raw_info with
  | Except.error e => Except.error e
  | Except.ok (info, rt, fr, u) =>
    Except.ok { t with raw_info := info, rotation_type := rt, frame_rate := fr, units := u }

/-- The dict `{'X':0, 'Y':1, 'Z':2, 'W':3}`; `none` models a `KeyError`. -/
def axis_index_rot (a : String) : Option Nat :=
  if a = "X" then some 0 else if a = "Y" then some 1
  else if a = "Z" then some 2 else if a = "W" then some 3 else none

/-- The dict `{'X':0, 'Y':1, 'Z':2}`; `none` models a `KeyError`. -/
def axis_index_pos (a : String) : Option Nat :=
  if a = "X" then some 0 else if a = "Y" then some 1
  else if a = "Z" then some 2 else none

/-- The get-or-create block for a rigid body label inside the header column
loop. -/
def get_or_create (t : Take) (label id : String) : Take :=
  if (lookup label t.rigid_bodies).isSome then t
  else { t with rigid_bodies := t.rigid_bodies ++ [(label, RigidBody.mk label id [] [] [])] }

/-- The `zip`-driven column loop of `Take._read_header` over lines 3..7
(`zip` truncates at the shortest sequence; `col` mirrors the `range` counter). -/
def process_columns (t : Take) (col : Nat) :
    List String → List String → List String → List String → List String →
    Except String Take
  | atype :: ar, label :: lr, id :: ir, field :: fr, axis :: xr =>
    if atype = "Rigid Body" then
      if field = "Rotation" then
        match axis_index_rot axis with
        | some ai =>
          process_columns
            { get_or_create t label id with column_map :=
                (get_or_create t label id).column_map ++ [⟨label, SetterKind.rotation, ai, col⟩] }
            (col + 1) ar lr ir fr xr
        | none => Except.error ("KeyError: " ++ axis)
      else if field = "Position" then
        match axis_index_pos axis with
        | some ai =>
          process_columns
            { get_or_create t label id with column_map :=
                (get_or_create t label id).column_map ++ [⟨label, SetterKind.position, ai, col⟩] }
            (col + 1) ar lr ir fr xr
        | none => Except.error ("KeyError: " ++ axis)
      else process_columns (get_or_create t label id) (col + 1) ar lr ir fr xr
    else
      process_columns
        (if t.ignored_labels.contains label then t
         else { t with ignored_labels := t.ignored_labels ++ [label] })
        (col + 1) ar lr ir fr xr
  | _, _, _, _, _ => Except.ok t

/-- The part of `Take._read_header` that consumes lines 2..7 and runs the
column loop.  Returns the populated take and the remaining (data) lines;
running out of lines models the `StopIteration` escaping from `next`. -/
def read_header_rest (t : Take) (lines : List (List String)) :
    Except String (Take × List (List String)) :=
  match lines with
  | line2 :: line3 :: line4 :: line5 :: line6 :: line7 :: rest =>
    if line2.length = 0 then
      if (line3.drop 2).all
          (fun ty => ty = "Rigid Body" ∨ ty = "Rigid Body Marker" ∨ ty = "Marker") then
        match process_columns
                { t with raw_types := line3.drop 2, raw_labels := line4.drop 2,
                         raw_fields := line6.drop 2, raw_axes := line7.drop 2 }
                0 (line3.drop 2) (line4.drop 2) (line5.drop 2) (line6.drop 2)
                (line7.drop 2) with
        | Except.error e => Except.error e
        | Except.ok t2 => Except.ok (t2, rest)
      else Except.error "AssertionError: Unsupported object type found in header line 3"
    else Except.error "AssertionError: Expected blank second header line"
  | _ => Except.error "StopIteration"

/-- `Take._read_header`. -/
def read_header (t : Take) (lines : List (List String)) :
    Except String (Take × List (List String)) :=
  match lines with
  | [] => Except.error "StopIteration"
  | line1 :: rest =>
    match read_header_line1 t line1 with
    | Except.error e => Except.error e
    | Except.ok t1 => read_header_rest t1 rest

/-! ### Take._read_data -/

/-- One `ColumnMapping` application:
`mapping.setter(frame_num, mapping.axis, values[mapping.column])`. -/
def apply_mapping (t : Take) (m : ColumnMapping) (frame : Int)
    (values : List String) : Take × Option String :=
  match pyGet values (m.column : Int) with
  | Except.error e => (t, some e)
  | Except.ok v =>
    match lookup m.target t.rigid_bodies with
    | none => (t, some "internal: setter bound to unknown body")
    | some b =>
      match (match m.kind with
             | SetterKind.position => b.set_position frame m.axis v
             | SetterKind.rotation => b.set_rotation frame m.axis v) with
      | (b2, e2) => ({ t with rigid_bodies := updateBody m.target b2 t.rigid_bodies }, e2)

/-- The `for mapping in self._column_map` loop; an exception aborts the loop
with the state reached so far. -/
def process_mappings (t : Take) (ms : List ColumnMapping) (frame : Int)
    (values : List String) : Take × Option String :=
  match ms with
  | [] => (t, none)
  | m :: rest =>
    match apply_mapping t m frame values with
    | (t1, some e) => (t1, some e)
    | (t1, none) => process_mappings t1 rest frame values

/-- One iteration of the `for row in stream` loop of `Take._read_data`. -/
def process_row (t : Take) (row : List String) : Take × Option String :=
  match pyGet row 0 with
  | Except.error e => (t, some e)
  | Except.ok c0 =>
    match pyInt c0 with
    | Except.error e => (t, some e)
    | Except.ok frame_num =>
      match pyGet row 1 with
      | Except.error e => (t, some e)
      | Except.ok c1 =>
        match pyFloat c1 with
        | Except.error e => (t, some e)
        | Except.ok frame_t =>
          process_mappings
            { t with rigid_bodies :=
                t.rigid_bodies.map (fun p => (p.1, p.2.add_frame frame_t)) }
            t.column_map frame_num (row.drop 2)

/-- `Take._read_data`: process every remaining row; an exception aborts the
loop with the state reached so far (there is no rollback). -/
def read_data (t : Take) (rows : List (List String)) : Take × Option String :=
  match rows with
  | [] => (t, none)
  | row :: rest =>
    match process_row t row with
    | (t1, some e) => (t1, some e)
    | (t1, none) => read_data t1 rest

/-! ### Take.readCSV -/

/-- `Take.readCSV`: reset the four collections, then run the header parser and
the data reader over the tokenized lines of the file. -/
def Take.readCSV (self : Take) (lines : List String) : Except String Take :=
  match read_header
          { self with rigid_bodies := [], raw_info := [], ignored_labels := [],
                      column_map := [] }
          (lines.map tokenize) with
  | Except.error e => Except.error e
  | Except.ok (t1, rows) =>
    match read_data t1 rows with
    | (t2, none) => Except.ok t2
    | (_, some e) => Except.error e

/-- Parsing a file from a fresh `Take` instance (the normal entry point). -/
def readCSV (lines : List String) : Except String Take :=
  Take.init.readCSV lines

/-! ### Basic lemmas about the Python primitives -/

theorem pyIdx_natCast (len n : Nat) : pyIdx len (n : Int) = (n : Int) := by
  unfold pyIdx
  rw [if_neg (by omega)]

theorem pyIdx_natCast_toNat (len n : Nat) : (pyIdx len (n : Int)).toNat = n := by
  rw [pyIdx_natCast]
  omega

theorem pyGet_nat_lt {α : Type} (l : List α) (n : Nat) (h : n < l.length) :
    pyGet l (n : Int) = Except.ok (l.get ⟨n, h⟩) := by
  unfold pyGet
  rw [dif_pos]
  · simp only [List.get_eq_getElem, pyIdx_natCast_toNat]
  · refine ⟨by rw [pyIdx_natCast]; omega, ?_⟩
    rw [pyIdx_natCast_toNat]
    exact h

theorem pyGet_nat_ge {α : Type} (l : List α) (n : Nat) (h : l.length ≤ n) :
    pyGet l (n : Int) = Except.error "IndexError: list index out of range" := by
  unfold pyGet
  rw [dif_neg]
  intro hc
  rw [pyIdx_natCast_toNat] at hc
  omega

theorem pySet_nat_lt {α : Type} (l : List α) (n : Nat) (a : α) (h : n < l.length) :
    pySet l (n : Int) a = Except.ok (l.set n a) := by
  unfold pySet
  rw [if_pos]
  · rw [pyIdx_natCast_toNat]
  · refine ⟨by rw [pyIdx_natCast]; omega, ?_⟩
    rw [pyIdx_natCast_toNat]
    exact h

theorem pySet_nat_ge {α : Type} (l : List α) (n : Nat) (a : α) (h : l.length ≤ n) :
    pySet l (n : Int) a = Except.error "IndexError: list index out of range" := by
  unfold pySet
  rw [if_neg]
  intro hc
  rw [pyIdx_natCast_toNat] at hc
  omega

theorem pyGet_ok_inv {α : Type} {l : List α} {i : Int} {a : α}
    (h : pyGet l i = Except.ok a) :
    ∃ (j : Nat) (hj : j < l.length), pyIdx l.length i = (j : Int) ∧ a = l.get ⟨j, hj⟩ := by
  unfold pyGet at h
  split at h
  case isTrue hc =>
    refine ⟨(pyIdx l.length i).toNat, hc.2, ?_, ?_⟩
    · exact (Int.toNat_of_nonneg hc.1).symm
    · exact (Except.ok.injEq _ _).mp h.symm |>.symm ▸ by
        cases h; rfl
  case isFalse => cases h

theorem pySet_ok_inv {α : Type} {l l' : List α} {i : Int} {a : α}
    (h : pySet l i a = Except.ok l') :
    ∃ j : Nat, j < l.length ∧ pyIdx l.length i = (j : Int) ∧ l' = l.set j a := by
  unfold pySet at h
  split at h
  case isTrue hc =>
    refine ⟨(pyIdx l.length i).toNat, hc.2, (Int.toNat_of_nonneg hc.1).symm, ?_⟩
    cases h; rfl
  case isFalse => cases h

theorem pySet_ok_length {α : Type} {l l' : List α} {i : Int} {a : α}
    (h : pySet l i a = Except.ok l') : l'.length = l.length := by
  obtain ⟨j, _, _, rfl⟩ := pySet_ok_inv h
  simp

theorem pyGet_error_msg {α : Type} {l : List α} {i : Int} {e : String}
    (h : pyGet l i = Except.error e) : e = "IndexError: list index out of range" := by
  unfold pyGet at h
  split at h
  · cases h
  · cases h; rfl

theorem pySet_error_msg {α : Type} {l : List α} {i : Int} {a : α} {e : String}
    (h : pySet l i a = Except.error e) : e = "IndexError: list index out of range" := by
  unfold pySet at h
  split at h
  · cases h
  · cases h; rfl

/-- After a successful `pySet`, reading the same index gives the new value. -/
theorem pyGet_pySet_same {α : Type} {l l' : List α} {i : Int} {a : α}
    (h : pySet l i a = Except.ok l') : pyGet l' i = Except.ok a := by
  obtain ⟨j, hj, hidx, rfl⟩ := pySet_ok_inv h
  have hlen : (l.set j a).length = l.length := by simp
  unfold pyGet
  rw [dif_pos]
  · congr 1
    have : (pyIdx (l.set j a).length i).toNat = j := by
      rw [hlen, hidx]; simp
    rw [List.get_eq_getElem]
    simp only [this]
    exact List.getElem_set_self (by simpa using hj)
  · constructor
    · rw [hlen, hidx]; exact Int.ofNat_nonneg j
    · rw [hlen, hidx]; simpa using hj

/-! ### Lemmas about lookup / upsert / updateBody -/

theorem lookup_append {α : Type} (k : String) (l1 l2 : List (String × α)) :
    lookup k (l1 ++ l2)
      = match lookup k l1 with | some v => some v | none => lookup k l2 := by
  induction l1 with
  | nil => rfl
  | cons p rest ih =>
    by_cases h : p.1 = k <;> simp [lookup, h, ih]

theorem lookup_updateBody_same (k : String) (b : RigidBody)
    (bs : List (String × RigidBody)) (h : (lookup k bs).isSome) :
    lookup k (updateBody k b bs) = some b := by
  induction bs with
  | nil => simp [lookup] at h
  | cons p rest ih =>
    by_cases hp : p.1 = k
    · simp [updateBody, lookup, hp]
    · simp only [lookup, hp, if_false] at h
      simp [updateBody, lookup, hp, ih h]

theorem lookup_updateBody_ne (k k' : String) (b : RigidBody)
    (bs : List (String × RigidBody)) (h : k' ≠ k) :
    lookup k' (updateBody k b bs) = lookup k' bs := by
  induction bs with
  | nil => rfl
  | cons p rest ih =>
    by_cases hp : p.1 = k
    · have hk : ¬(k = k') := fun hh => h hh.symm
      have hp' : ¬(p.1 = k') := by rw [hp]; exact hk
      simp [updateBody, hp, lookup, hk, hp']
    · simp only [updateBody, hp, if_false, lookup]
      by_cases hq : p.1 = k' <;> simp [lookup, hq, ih]

theorem updateBody_keys (k : String) (b : RigidBody) (bs : List (String × RigidBody)) :
    (updateBody k b bs).map Prod.fst = bs.map Prod.fst ∨
      ∀ p ∈ bs, p.1 ≠ k := by
  induction bs with
  | nil => right; simp
  | cons p rest ih =>
    by_cases hp : p.1 = k
    · left; simp [updateBody, hp]
    · rcases ih with h | h
      · left; simp [updateBody, hp, h]
      · right; intro q hq
        rcases List.mem_cons.mp hq with rfl | hq
        · exact hp
        · exact h q hq

theorem lookup_isSome_updateBody (k k' : String) (b : RigidBody)
    (bs : List (String × RigidBody)) :
    (lookup k' (updateBody k b bs)).isSome = (lookup k' bs).isSome := by
  induction bs with
  | nil => rfl
  | cons p rest ih =>
    by_cases hp : p.1 = k
    · subst hp
      by_cases hq : p.1 = k' <;> simp [updateBody, lookup, hq]
    · simp only [updateBody, hp, if_false, lookup]
      by_cases hq : p.1 = k' <;> simp [lookup, hq, ih]

/-- Each entry of an updated association list is either an old entry or the
newly written pair. -/
theorem mem_updateBody {k : String} {b : RigidBody} {bs : List (String × RigidBody)}
    {q : String × RigidBody} (h : q ∈ updateBody k b bs) :
    q ∈ bs ∨ q = (k, b) := by
  induction bs with
  | nil => simp [updateBody] at h
  | cons p rest ih =>
    by_cases hp : p.1 = k
    · simp only [updateBody, hp, if_true] at h
      rcases List.mem_cons.mp h with rfl | h
      · right; rfl
      · left; exact List.mem_cons_of_mem _ h
    · simp only [updateBody, hp, if_false] at h
      rcases List.mem_cons.mp h with rfl | h
      · left; exact List.mem_cons_self _ _
      · rcases ih h with h | h
        · left; exact List.mem_cons_of_mem _ h
        · right; exact h

theorem lookup_mem {α : Type} {k : String} {v : α} {l : List (String × α)}
    (h : lookup k l = some v) : (k, v) ∈ l := by
  induction l with
  | nil => cases h
  | cons p rest ih =>
    by_cases hp : p.1 = k
    · simp only [lookup, hp, if_true, Option.some.injEq] at h
      subst h
      rw [← hp]
      exact List.mem_cons_self _ _
    · simp only [lookup, hp, if_false] at h
      exact List.mem_cons_of_mem _ (ih h)

theorem getD_append_lt {α : Type} (l l2 : List α) (n : Nat) (d : α)
    (h : n < l.length) : (l ++ l2).getD n d = l.getD n d := by
  rw [List.getD_eq_getElem?_getD, List.getD_eq_getElem?_getD,
    List.getElem?_append, if_pos h]

theorem getD_eq_get {α : Type} (l : List α) (n : Nat) (d : α) (h : n < l.length) :
    l.getD n d = l.get ⟨n, h⟩ := by
  rw [List.getD_eq_getElem?_getD, List.getElem?_eq_getElem h]
  rfl

theorem pyGet_append_nat_lt {α : Type} (l l2 : List α) (n : Nat) (h : n < l.length) :
    pyGet (l ++ l2) (n : Int) = pyGet l (n : Int) := by
  rw [pyGet_nat_lt l n h, pyGet_nat_lt (l ++ l2) n (by rw [List.length_append]; omega)]
  simp only [List.get_eq_getElem, Except.ok.injEq]
  exact List.getElem_append_left _

/-! ### Claim C4: parity of header line 1 -/

/-- The pair loop sees only the first `2 * (len / 2)` fields, so appending one
trailing field to an even-length line 1 changes nothing. -/
theorem store_pairs_append_even (info : List (String × String)) (l1 : List String)
    (x : String) (hev : l1.length % 2 = 0) :
    store_pairs info (l1 ++ [x]) = store_pairs info l1 := by
  unfold store_pairs
  have hlen : (l1 ++ [x]).length / 2 = l1.length / 2 := by
    rw [List.length_append]
    simp only [List.length_singleton]
    omega
  rw [hlen]
  apply List.foldl_ext
  intro acc i hi
  rw [List.mem_range] at hi
  rw [getD_append_lt _ _ _ _ (by omega), getD_append_lt _ _ _ _ (by omega)]

/-- C4 (amended): the header parser does not validate the parity of line 1.
A line 1 of odd length is processed exactly as the even-length line obtained
by dropping its final field: `range(len(line1)/2)` floor-divides, so the
trailing unpaired field is silently ignored and no error is raised. -/
theorem odd_line1_trailing_field_ignored (t : Take) (line1 : List String)
    (x : String) (h2 : 2 ≤ line1.length) (hev : line1.length % 2 = 0) :
    read_header_line1 t (line1 ++ [x]) = read_header_line1 t line1 := by
  have e0 : pyGet (line1 ++ [x]) ((0 : Nat) : Int) = pyGet line1 ((0 : Nat) : Int) :=
    pyGet_append_nat_lt line1 [x] 0 (by omega)
  have e1 : pyGet (line1 ++ [x]) ((1 : Nat) : Int) = pyGet line1 ((1 : Nat) : Int) :=
    pyGet_append_nat_lt line1 [x] 1 (by omega)
  have es := store_pairs_append_even t.raw_info line1 x hev
  unfold read_header_line1 line1_info
  rw [show ((0 : Int)) = ((0 : Nat) : Int) from rfl, show ((1 : Int)) = ((1 : Nat) : Int) from rfl]
  rw [e0, e1, es]

/-! ### Inversion and propagation lemmas for the header phase -/

theorem read_header_line1_ok_inv {t t' : Take} {line1 : List String}
    (h : read_header_line1 t line1 = Except.ok t') :
    ∃ info rt fr u, line1_info line1 t.raw_info = Except.ok (info, rt, fr, u) ∧
      t' = { t with raw_info := info, rotation_type := rt, frame_rate := fr, units := u } := by
  unfold read_header_line1 at h
  cases hli : line1_info line1 t.raw_info with
  | error e => rw [hli] at h; cases h
  | ok quad =>
    obtain ⟨info, rt, fr, u⟩ := quad
    rw [hli] at h
    injection h with h2
    exact ⟨info, rt, fr, u, rfl, h2.symm⟩

theorem line1_info_ok_inv {line1 : List String} {info0 info : List (String × String)}
    {rt : Option String} {fr : ℚ} {u : String}
    (h : line1_info line1 info0 = Except.ok (info, rt, fr, u)) :
    info = store_pairs info0 line1 ∧ rt = lookup "Rotation Type" info ∧
      rt = some "Quaternion" ∧
      (lookup "Export Frame Rate" info = none → fr = 120) ∧
      u = (lookup "Length Units" info).getD "Meters" := by
  unfold line1_info at h
  repeat' split at h
  all_goals try cases h
  refine ⟨rfl, rfl, by assumption, fun hn => ?_, rfl⟩
  simp_all

theorem read_header_line1_error_of_info {t : Take} {l1 : List String} {e : String}
    (h : line1_info l1 t.raw_info = Except.error e) :
    read_header_line1 t l1 = Except.error e := by
  unfold read_header_line1
  rw [h]

theorem read_header_error_of_line1 {t : Take} {l1 : List String}
    {rest : List (List String)} {e : String}
    (h : read_header_line1 t l1 = Except.error e) :
    read_header t (l1 :: rest) = Except.error e := by
  simp only [read_header]
  rw [h]

theorem readCSV_error_of_header {s : Take} {lines : List String} {e : String}
    (h : read_header
        { s with rigid_bodies := [], raw_info := [], ignored_labels := [],
                 column_map := [] }
        (lines.map tokenize) = Except.error e) :
    s.readCSV lines = Except.error e := by
  unfold Take.readCSV
  rw [h]

/-! ### Claim C5: which header keys are optional -/

/-- C5 (amended): besides "Format Version", the key "Rotation Type" is also
mandatory (when it is absent the Quaternion assertion fails fatally); the
remaining keys are optional: whenever line 1 is accepted and "Export Frame
Rate" and "Length Units" are absent from the stored pairs, the resulting
`Take` has `rotation_type = some "Quaternion"`, `frame_rate = 120` and
`units = "Meters"`. -/
theorem optional_keys_defaults (t t' : Take) (line1 : List String)
    (h : read_header_line1 t line1 = Except.ok t')
    (hf : lookup "Export Frame Rate" t'.raw_info = none)
    (hu : lookup "Length Units" t'.raw_info = none) :
    t'.rotation_type = some "Quaternion" ∧ t'.frame_rate = 120 ∧ t'.units = "Meters" := by
  obtain ⟨info, rt, fr, u, hli, rfl⟩ := read_header_line1_ok_inv h
  obtain ⟨hinfo, hrt_eq, hrtq, hfr, hu_eq⟩ := line1_info_ok_inv hli
  have hf' : lookup "Export Frame Rate" info = none := hf
  have hu' : lookup "Length Units" info = none := hu
  refine ⟨hrtq, hfr hf', ?_⟩
  show u = "Meters"
  rw [hu_eq, hu']
  rfl

/-! ### Claim C6: unsupported format versions fail before any data is read -/

/-- C6: whatever the rest of the file contains (header lines or data rows),
if the value paired with "Format Version" on the first line is neither "1.2"
nor "1.21" the whole parse fails with the specific version error; no data row
is ever reached. -/
theorem bad_format_version_fatal (first : String) (rest : List String)
    (hk : (tokenize first).getD 0 "" = "Format Version")
    (hlen : 2 ≤ (tokenize first).length)
    (hv1 : (tokenize first).getD 1 "" ≠ "1.2")
    (hv2 : (tokenize first).getD 1 "" ≠ "1.21") :
    readCSV (first :: rest)
      = Except.error ("AssertionError: Unsupported format version: "
          ++ (tokenize first).getD 1 "") := by
  have h0 : pyGet (tokenize first) ((0 : Nat) : Int) = Except.ok "Format Version" := by
    rw [pyGet_nat_lt _ 0 (by omega), ← hk, getD_eq_get _ 0 "" (by omega)]
  have h1 : pyGet (tokenize first) ((1 : Nat) : Int)
      = Except.ok ((tokenize first).getD 1 "") := by
    rw [pyGet_nat_lt _ 1 (by omega), getD_eq_get _ 1 "" (by omega)]
  have hli : line1_info (tokenize first) []
      = Except.error ("AssertionError: Unsupported format version: "
          ++ (tokenize first).getD 1 "") := by
    unfold line1_info
    rw [show ((0 : Int)) = ((0 : Nat) : Int) from rfl,
      show ((1 : Int)) = ((1 : Nat) : Int) from rfl, h0, h1]
    simp
    rintro (hc | hc)
    · exact absurd hc (by simpa using hv2)
    · exact absurd hc (by simpa using hv1)
  unfold readCSV
  apply readCSV_error_of_header
  rw [List.map_cons]
  apply read_header_error_of_line1
  exact read_header_line1_error_of_info hli

/-! ### Concrete inputs used by the witnesses and counterexamples -/

/-- A minimal well-formed file: one rigid body with three position columns and
one data row. -/
def demoLines : List String :=
  [ "Format Version,1.2,Rotation Type,Quaternion",
    "",
    ",,Rigid Body,Rigid Body,Rigid Body",
    ",,Body1,Body1,Body1",
    ",,1,1,1",
    ",,Position,Position,Position",
    ",,X,Y,Z",
    "0,0.0,1.0,2.0,3.0" ]

/-- The same file with an odd-length (5-field) first line. -/
def oddLines : List String :=
  "Format Version,1.2,Rotation Type,Quaternion,Extra" :: demoLines.tail

/-- The same file with a first line holding only the "Format Version" pair. -/
def onlyFormatVersionLines : List String :=
  "Format Version,1.2" :: demoLines.tail

/-- C4 (counterexample): a header whose line 1 tokenizes to 5 fields (odd) is
not rejected: the whole file parses successfully, refuting the claim that an
odd-length line 1 is a fatal error. -/
theorem odd_line1_accepted_cx :
    (tokenize (oddLines.getD 0 "")).length % 2 = 1 ∧
      (readCSV oddLines).toOption.isSome = true := by
  constructor
  · decide
  · decide

/-- Witness for the amended C4 at a concrete odd line 1. -/
theorem odd_line1_trailing_field_ignored_witness :
    2 ≤ (["Format Version", "1.2", "Rotation Type", "Quaternion"] : List String).length ∧
    (["Format Version", "1.2", "Rotation Type", "Quaternion"] : List String).length % 2 = 0 ∧
    read_header_line1 Take.init
        (["Format Version", "1.2", "Rotation Type", "Quaternion"] ++ ["Extra"])
      = read_header_line1 Take.init ["Format Version", "1.2", "Rotation Type", "Quaternion"] :=
  ⟨by decide, by decide,
    odd_line1_trailing_field_ignored Take.init
      ["Format Version", "1.2", "Rotation Type", "Quaternion"] "Extra"
      (by decide) (by decide)⟩

/-- The take produced by accepting the minimal line 1 of `demoLines`. -/
def demoHeaderTake : Take :=
  ⟨120, some "Quaternion", "Meters", [],
    [("Format Version", "1.2"), ("Rotation Type", "Quaternion")],
    [], [], [], [], [], []⟩

/-- C5 (counterexample): a header whose line 1 contains only the
"Format Version" pair is rejected (the "Rotation Type" lookup yields `None`
and the Quaternion assertion fails), refuting the claim that every key beyond
"Format Version" is optional. -/
theorem rotation_type_required_cx :
    tokenize (onlyFormatVersionLines.getD 0 "") = ["Format Version", "1.2"] ∧
      readCSV onlyFormatVersionLines
        = Except.error "AssertionError: Only the Quaternion rotation type is supported" := by
  constructor
  · decide
  · decide

/-- Witness for the amended C5: with "Format Version" and "Rotation Type"
present and nothing else, line 1 is accepted and the defaults apply. -/
theorem optional_keys_defaults_witness :
    read_header_line1 Take.init ["Format Version", "1.2", "Rotation Type", "Quaternion"]
        = Except.ok demoHeaderTake ∧
      lookup "Export Frame Rate" demoHeaderTake.raw_info = none ∧
      lookup "Length Units" demoHeaderTake.raw_info = none ∧
      (demoHeaderTake.rotation_type = some "Quaternion" ∧
        demoHeaderTake.frame_rate = 120 ∧ demoHeaderTake.units = "Meters") :=
  ⟨by decide, by decide, by decide,
    optional_keys_defaults Take.init demoHeaderTake
      ["Format Version", "1.2", "Rotation Type", "Quaternion"]
      (by decide) (by decide) (by decide)⟩

/-- Witness for C6 at the concrete version "1.0". -/
theorem bad_format_version_fatal_witness :
    ((tokenize "Format Version,1.0").getD 0 "" = "Format Version" ∧
      2 ≤ (tokenize "Format Version,1.0").length ∧
      (tokenize "Format Version,1.0").getD 1 "" ≠ "1.2" ∧
      (tokenize "Format Version,1.0").getD 1 "" ≠ "1.21") ∧
    readCSV ["Format Version,1.0", "0,0.0,1.0"]
      = Except.error ("AssertionError: Unsupported format version: "
          ++ (tokenize "Format Version,1.0").getD 1 "") :=
  ⟨⟨by decide, by decide, by decide, by decide⟩,
    bad_format_version_fatal "Format Version,1.0" ["0,0.0,1.0"]
      (by decide) (by decide) (by decide) (by decide)⟩

/-! ### Claim C8: rigid-body columns with an unmapped field kind -/

/-- C8: a "Rigid Body" column whose field kind is neither "Rotation" nor
"Position" (e.g. an error-metric column) still get-or-creates the trajectory
for its label, raises no error (the loop simply proceeds to the remaining
columns), and appends no ColumnMapping for that column. -/
theorem unmapped_rigid_body_field (t : Take) (col : Nat)
    (label id field axis : String) (ar lr ir fr xr : List String)
    (h1 : field ≠ "Rotation") (h2 : field ≠ "Position") :
    process_columns t col ("Rigid Body" :: ar) (label :: lr) (id :: ir)
        (field :: fr) (axis :: xr)
      = process_columns (get_or_create t label id) (col + 1) ar lr ir fr xr
    ∧ (lookup label (get_or_create t label id).rigid_bodies).isSome = true
    ∧ (get_or_create t label id).column_map = t.column_map := by
  refine ⟨?_, ?_, ?_⟩
  · simp only [process_columns]
    rw [if_pos trivial, if_neg h1, if_neg h2]
  · unfold get_or_create
    by_cases h : (lookup label t.rigid_bodies).isSome
    · rw [if_pos h]; exact h
    · rw [if_neg h]
      show (lookup label
        (t.rigid_bodies ++ [(label, RigidBody.mk label id [] [] [])])).isSome = true
      rw [lookup_append]
      cases hl : lookup label t.rigid_bodies with
      | some b => rw [hl] at h; simp at h
      | none => simp [lookup]
  · unfold get_or_create
    by_cases h : (lookup label t.rigid_bodies).isSome
    · rw [if_pos h]
    · rw [if_neg h]

/-- Witness for C8 at a concrete error-metric column. -/
theorem unmapped_rigid_body_field_witness :
    "Mean Marker Error" ≠ "Rotation" ∧ "Mean Marker Error" ≠ "Position" ∧
    (process_columns Take.init 0 ["Rigid Body"] ["B"] ["7"] ["Mean Marker Error"] [""]
        = process_columns (get_or_create Take.init "B" "7") 1 [] [] [] [] []
      ∧ (lookup "B" (get_or_create Take.init "B" "7").rigid_bodies).isSome = true
      ∧ (get_or_create Take.init "B" "7").column_map = Take.init.column_map) :=
  ⟨by decide, by decide,
    unmapped_rigid_body_field Take.init 0 "B" "7" "Mean Marker Error" "" [] [] [] [] []
      (by decide) (by decide)⟩

/-! ### Claim C10: no rollback when the data phase fails -/

/-- C10: the data reader is not atomic on error.  If it fails, there is a row
index k such that every earlier row was processed without error, and the
returned state is exactly the state accumulated through those k rows plus the
partial effects of row k itself; nothing is rolled back. -/
theorem no_rollback_on_error (t : Take) (rows : List (List String)) (e : String)
    (h : (read_data t rows).2 = some e) :
    ∃ k, k < rows.length ∧ (read_data t (rows.take k)).2 = none ∧
      read_data t rows = process_row (read_data t (rows.take k)).1 (rows.getD k []) ∧
      (process_row (read_data t (rows.take k)).1 (rows.getD k [])).2 = some e := by
  induction rows generalizing t with
  | nil => simp [read_data] at h
  | cons r rest ih =>
    cases hr : process_row t r with
    | mk t1 err =>
      cases err with
      | some e1 =>
        have hread : read_data t (r :: rest) = (t1, some e1) := by
          simp only [read_data, hr]
        rw [hread] at h
        simp only at h
        injection h with h
        subst h
        refine ⟨0, by simp, rfl, ?_, ?_⟩
        · rw [hread]
          show (t1, some e1) = process_row t r
          rw [hr]
        · show (process_row t r).2 = some e1
          rw [hr]
      | none =>
        have hread : read_data t (r :: rest) = read_data t1 rest := by
          simp only [read_data, hr]
        rw [hread] at h
        obtain ⟨k, hk, hnone, heq, herr⟩ := ih t1 h
        have hstep : read_data t (r :: rest.take k) = read_data t1 (rest.take k) := by
          simp only [read_data, hr]
        refine ⟨k + 1, by simp only [List.length_cons]; omega, ?_, ?_, ?_⟩
        · show (read_data t (r :: rest.take k)).2 = none
          rw [hstep, hnone]
        · show read_data t (r :: rest)
            = process_row (read_data t (r :: rest.take k)).1 (rest.getD k [])
          rw [hread, hstep, ← heq]
        · show (process_row (read_data t (r :: rest.take k)).1 (rest.getD k [])).2
            = some e
          rw [hstep]
          exact herr

/-- A post-header state with one body and one position mapping, used by the
C10 witness. -/
def c10Take : Take :=
  ⟨120, some "Quaternion", "Meters", [("Body1", ⟨"Body1", "1", [], [], []⟩)],
    [], [], [], [], [], [], [⟨"Body1", SetterKind.position, 0, 0⟩]⟩

/-- Witness for C10: the second row is too short, the first row's effects are
retained. -/
theorem no_rollback_on_error_witness :
    (read_data c10Take [["0", "0.0", "1.0"], ["1", "0.1"]]).2
        = some "IndexError: list index out of range" ∧
      (∃ k, k < ([["0", "0.0", "1.0"], ["1", "0.1"]] : List (List String)).length ∧
        (read_data c10Take ([["0", "0.0", "1.0"], ["1", "0.1"]].take k)).2 = none ∧
        read_data c10Take [["0", "0.0", "1.0"], ["1", "0.1"]]
          = process_row (read_data c10Take ([["0", "0.0", "1.0"], ["1", "0.1"]].take k)).1
              ([["0", "0.0", "1.0"], ["1", "0.1"]].getD k []) ∧
        (process_row (read_data c10Take ([["0", "0.0", "1.0"], ["1", "0.1"]].take k)).1
            ([["0", "0.0", "1.0"], ["1", "0.1"]].getD k [])).2
          = some "IndexError: list index out of range") :=
  ⟨by decide,
    no_rollback_on_error c10Take [["0", "0.0", "1.0"], ["1", "0.1"]]
      "IndexError: list index out of range" (by decide)⟩

/-! ### Claim C7: parsing is deterministic and independent of prior state -/

/-- `Take._read_header` never reads the raw column metadata left over on the
instance: lines 3-7 overwrite all four fields before the column loop runs. -/
theorem read_header_rest_raw_agnostic (t1 t2 : Take) (r : List (List String))
    (hfr : t1.frame_rate = t2.frame_rate) (hrt : t1.rotation_type = t2.rotation_type)
    (hun : t1.units = t2.units) (hrb : t1.rigid_bodies = t2.rigid_bodies)
    (hri : t1.raw_info = t2.raw_info) (hig : t1.ignored_labels = t2.ignored_labels)
    (hcm : t1.column_map = t2.column_map) :
    read_header_rest t1 r = read_header_rest t2 r := by
  obtain ⟨a1, r1, u1, rb1, ri1, T1, L1, F1, X1, g1, c1⟩ := t1
  obtain ⟨a2, r2, u2, rb2, ri2, T2, L2, F2, X2, g2, c2⟩ := t2
  simp only at hfr hrt hun hrb hri hig hcm
  subst hfr hrt hun hrb hri hig hcm
  rcases r with _ | ⟨l2, r⟩
  · rfl
  rcases r with _ | ⟨l3, r⟩
  · rfl
  rcases r with _ | ⟨l4, r⟩
  · rfl
  rcases r with _ | ⟨l5, r⟩
  · rfl
  rcases r with _ | ⟨l6, r⟩
  · rfl
  rcases r with _ | ⟨l7, rest⟩
  · rfl
  rfl

/-- C7: two parse invocations of the same input, on any two `Take` instances
(fresh or previously used), give identical results: `readCSV` resets the four
collections and the header overwrites every other field before use, so no
state leaks from one parse into the next. -/
theorem parse_deterministic (s1 s2 : Take) (lines : List String) :
    s1.readCSV lines = s2.readCSV lines := by
  obtain ⟨a1, r1, u1, rb1, ri1, T1, L1, F1, X1, g1, c1⟩ := s1
  obtain ⟨a2, r2, u2, rb2, ri2, T2, L2, F2, X2, g2, c2⟩ := s2
  unfold Take.readCSV
  cases htoks : lines.map tokenize with
  | nil => rfl
  | cons lh rest =>
    simp only [read_header]
    unfold read_header_line1
    dsimp only
    cases hli : line1_info lh [] with
    | error e => rfl
    | ok quad =>
      obtain ⟨info, rt, fr, u⟩ := quad
      dsimp only
      rw [read_header_rest_raw_agnostic
        ⟨fr, rt, u, [], info, T1, L1, F1, X1, [], []⟩
        ⟨fr, rt, u, [], info, T2, L2, F2, X2, [], []⟩ rest rfl rfl rfl rfl rfl rfl rfl]

/-! ### Success inversion for the setters -/

/-- Successful runs of `set_vec` either skipped an empty value or wrote
`float(value)` into the axis slot of the (lazily allocated) vector at the
resolved frame index; everything else is unchanged. -/
theorem set_vec_ok_inv {zero : List ℚ} {xs : List (Option (List ℚ))} {frame : Int}
    {axis : Nat} {value : String} {xs' : List (Option (List ℚ))}
    (h : set_vec zero xs frame axis value = (xs', none)) :
    (value = "" ∧ xs' = xs)
    ∨ (value ≠ "" ∧ ∃ j : Nat, j < xs.length ∧ pyIdx xs.length frame = (j : Int) ∧
        ∃ v : ℚ, pyFloat value = Except.ok v ∧
          axis < ((xs.getD j none).getD zero).length ∧
          xs' = xs.set j (some (((xs.getD j none).getD zero).set axis v))) := by
  unfold set_vec at h
  split at h
  case isTrue hv =>
    left
    injection h with h1 h2
    exact ⟨hv, h1.symm⟩
  case isFalse hv =>
    right
    refine ⟨hv, ?_⟩
    split at h
    case h_1 e hget => injection h with h1 h2; cases h2
    case h_2 cur hget =>
      split at h
      case h_1 e halloc => injection h with h1 h2; cases h2
      case h_2 xs1 halloc =>
        split at h
        case h_1 e hfl => injection h with h1 h2; cases h2
        case h_2 v hfl =>
          split at h
          case h_1 e hget2 => injection h with h1 h2; cases h2
          case h_2 hget2 => injection h with h1 h2; cases h2
          case h_3 vec hget2 =>
            split at h
            case h_1 e hs1 => injection h with h1 h2; cases h2
            case h_2 vec2 hs1 =>
              split at h
              case h_1 e hs2 => injection h with h1 h2; cases h2
              case h_2 xs2 hs2 =>
                injection h with h1 h2
                subst h1
                obtain ⟨j, hj, hidx, hcur⟩ := pyGet_ok_inv hget
                have hvec : vec = (xs.getD j none).getD zero := by
                  cases hc : cur with
                  | none =>
                    rw [hc] at halloc
                    have hsame := pyGet_pySet_same halloc
                    rw [hget2] at hsame
                    injection hsame with h3
                    injection h3 with h4
                    rw [hc] at hcur
                    rw [getD_eq_get xs j none hj, ← hcur, h4]
                    rfl
                  | some w =>
                    rw [hc] at halloc
                    injection halloc with h3
                    subst h3
                    rw [hc] at hcur
                    rw [hget2] at hget
                    rw [hc] at hget
                    injection hget with h5
                    injection h5 with h6
                    rw [getD_eq_get xs j none hj, ← hcur, h6]
                    rfl
                obtain ⟨j3, hj3, hidx3, hvec2⟩ := pySet_ok_inv hs1
                rw [pyIdx_natCast] at hidx3
                have hax : j3 = axis := by omega
                subst hax
                obtain ⟨j4, hj4, hidx4, hxs2⟩ := pySet_ok_inv hs2
                refine ⟨j, hj, hidx, v, hfl, ?_, ?_⟩
                · rw [← hvec]
                  exact hj3
                · cases hc : cur with
                  | none =>
                    rw [hc] at halloc
                    obtain ⟨j5, hj5, hidx5, hxs1⟩ := pySet_ok_inv halloc
                    have hj5j : j5 = j := by
                      rw [hidx] at hidx5
                      omega
                    rw [hj5j] at hxs1
                    have hlen1 : xs1.length = xs.length := by rw [hxs1]; simp
                    have hj4j : j4 = j := by
                      rw [hlen1, hidx] at hidx4
                      omega
                    rw [hj4j] at hxs2
                    rw [hxs2, hxs1, List.set_set, hvec2, ← hvec]
                  | some w =>
                    rw [hc] at halloc
                    injection halloc with h3
                    subst h3
                    have hj4j : j4 = j := by
                      rw [hidx] at hidx4
                      omega
                    rw [hj4j] at hxs2
                    rw [hxs2, hvec2, ← hvec]

/-- Successful `set_vec` runs preserve the length of the list. -/
theorem set_vec_ok_length {zero : List ℚ} {xs : List (Option (List ℚ))} {frame : Int}
    {axis : Nat} {value : String} {xs' : List (Option (List ℚ))}
    (h : set_vec zero xs frame axis value = (xs', none)) : xs'.length = xs.length := by
  rcases set_vec_ok_inv h with ⟨_, rfl⟩ | ⟨_, j, _, _, _, _, _, rfl⟩
  · rfl
  · simp

/-- `_set_position` written as a pair of projections (pair eta). -/
theorem set_position_eq (b : RigidBody) (frame : Int) (axis : Nat) (value : String) :
    b.set_position frame axis value
      = ({ b with positions := (set_vec [0, 0, 0] b.positions frame axis value).1 },
         (set_vec [0, 0, 0] b.positions frame axis value).2) := rfl

/-- `_set_rotation` written as a pair of projections (pair eta). -/
theorem set_rotation_eq (b : RigidBody) (frame : Int) (axis : Nat) (value : String) :
    b.set_rotation frame axis value
      = ({ b with rotations := (set_vec [0, 0, 0, 0] b.rotations frame axis value).1 },
         (set_vec [0, 0, 0, 0] b.rotations frame axis value).2) := rfl

/-! ### Claim C1: one frame slot per data row, in all three lists -/

/-- All bodies of a take have all three per-frame lists of length `n`. -/
def bodies_len (t : Take) (n : Nat) : Prop :=
  ∀ p ∈ t.rigid_bodies,
    p.2.positions.length = n ∧ p.2.rotations.length = n ∧ p.2.times.length = n

theorem mem_get_or_create {t : Take} {label id : String} {p : String × RigidBody}
    (h : p ∈ (get_or_create t label id).rigid_bodies) :
    p ∈ t.rigid_bodies ∨ p = (label, RigidBody.mk label id [] [] []) := by
  unfold get_or_create at h
  split at h
  · exact Or.inl h
  · rcases List.mem_append.mp h with h | h
    · exact Or.inl h
    · right
      simpa using h

/-- Bodies observable after the column loop are either old bodies or freshly
created empty ones. -/
theorem process_columns_bodies {P : String × RigidBody → Prop}
    (hP : ∀ label id, P (label, RigidBody.mk label id [] [] []))
    {a : List String} {t : Take} {col : Nat} {l i f x : List String} {t' : Take}
    (h : process_columns t col a l i f x = Except.ok t')
    (hb : ∀ p ∈ t.rigid_bodies, P p) :
    ∀ p ∈ t'.rigid_bodies, P p := by
  induction a generalizing t col l i f x with
  | nil =>
    have h' : Except.ok t = Except.ok t' := h
    injection h' with h1
    exact h1 ▸ hb
  | cons atype ar ih =>
    cases l with
    | nil =>
      have h' : Except.ok t = Except.ok t' := h
      injection h' with h1
      exact h1 ▸ hb
    | cons label lr =>
      cases i with
      | nil =>
        have h' : Except.ok t = Except.ok t' := h
        injection h' with h1
        exact h1 ▸ hb
      | cons id ir =>
        cases f with
        | nil =>
          have h' : Except.ok t = Except.ok t' := h
          injection h' with h1
          exact h1 ▸ hb
        | cons field fr2 =>
          cases x with
          | nil =>
            have h' : Except.ok t = Except.ok t' := h
            injection h' with h1
            exact h1 ▸ hb
          | cons axis xr =>
            simp only [process_columns] at h
            split at h
            case isTrue =>
              split at h
              case isTrue =>
                split at h
                case h_1 ai haxis =>
                  refine ih h ?_
                  intro p hp
                  rcases mem_get_or_create (p := p) hp with hp1 | rfl
                  · exact hb p hp1
                  · exact hP label id
                case h_2 => cases h
              case isFalse =>
                split at h
                case isTrue =>
                  split at h
                  case h_1 ai haxis =>
                    refine ih h ?_
                    intro p hp
                    rcases mem_get_or_create (p := p) hp with hp1 | rfl
                    · exact hb p hp1
                    · exact hP label id
                  case h_2 => cases h
                case isFalse =>
                  refine ih h ?_
                  intro p hp
                  rcases mem_get_or_create (p := p) hp with hp1 | rfl
                  · exact hb p hp1
                  · exact hP label id
            case isFalse =>
              refine ih h ?_
              intro p hp
              by_cases hig : t.ignored_labels.contains label
              · rw [if_pos hig] at hp
                exact hb p hp
              · rw [if_neg hig] at hp
                exact hb p hp

/-- Successful header runs consume exactly the seven header lines and leave
every body (old empty ones, and all the freshly created ones) empty. -/
theorem read_header_ok_inv {t : Take} {lines : List (List String)}
    {t' : Take} {rows : List (List String)}
    (h : read_header t lines = Except.ok (t', rows)) :
    rows = lines.drop 7 ∧ 7 ≤ lines.length ∧
      ((∀ p ∈ t.rigid_bodies, p.2.positions = [] ∧ p.2.rotations = [] ∧ p.2.times = []) →
        ∀ p ∈ t'.rigid_bodies,
          p.2.positions = [] ∧ p.2.rotations = [] ∧ p.2.times = []) := by
  unfold read_header at h
  split at h
  · cases h
  case h_2 l1 rest =>
    split at h
    · cases h
    case h_2 t1 hl1 =>
      obtain ⟨info, rt, fr, u, hli, rfl⟩ := read_header_line1_ok_inv hl1
      unfold read_header_rest at h
      split at h
      case h_2 => cases h
      case h_1 l2 l3 l4 l5 l6 l7 rest2 =>
        split at h
        case isFalse => cases h
        case isTrue hblank =>
          split at h
          case isFalse => cases h
          case isTrue htypes =>
            split at h
            case h_1 e hpc => cases h
            case h_2 t2 hpc =>
              injection h with h1
              injection h1 with ha hbq
              subst ha
              subst hbq
              refine ⟨rfl, by simp, ?_⟩
              intro hb
              refine process_columns_bodies (fun label id => ⟨rfl, rfl, rfl⟩) hpc ?_
              intro p hp
              exact hb p hp

theorem apply_mapping_eq (t : Take) (m : ColumnMapping) (frame : Int)
    (values : List String) {v : String} {b : RigidBody}
    (hg : pyGet values (m.column : Int) = Except.ok v)
    (hb : lookup m.target t.rigid_bodies = some b) :
    apply_mapping t m frame values
      = ({ t with
            rigid_bodies :=
              updateBody m.target
                (match m.kind with
                 | SetterKind.position => (b.set_position frame m.axis v).1
                 | SetterKind.rotation => (b.set_rotation frame m.axis v).1)
                t.rigid_bodies },
         (match m.kind with
          | SetterKind.position => (b.set_position frame m.axis v).2
          | SetterKind.rotation => (b.set_rotation frame m.axis v).2)) := by
  unfold apply_mapping
  rw [hg, hb]
  cases m.kind <;> rfl

/-- A successfully applied mapping preserves the per-body length invariant
and the column map. -/
theorem apply_mapping_ok_bodies {t : Take} {m : ColumnMapping} {frame : Int}
    {values : List String} {t' : Take} {n : Nat}
    (h : apply_mapping t m frame values = (t', none))
    (hb : bodies_len t n) : bodies_len t' n := by
  unfold apply_mapping at h
  split at h
  · injection h with h1 h2; cases h2
  case h_2 v hg =>
    split at h
    · injection h with h1 h2; cases h2
    case h_2 b hb2 =>
      cases hk : m.kind with
      | position =>
        rw [hk, set_position_eq] at h
        injection h with h1 h2
        subst h1
        intro p hp
        rcases mem_updateBody hp with hp1 | rfl
        · exact hb p hp1
        · obtain ⟨hbp, hbr, hbt⟩ := hb _ (lookup_mem hb2)
          have hsv : set_vec [0, 0, 0] b.positions frame m.axis v
              = ((set_vec [0, 0, 0] b.positions frame m.axis v).1, none) := by
            rw [← h2]
          refine ⟨?_, ?_, ?_⟩
          · show (set_vec [0, 0, 0] b.positions frame m.axis v).1.length = n
            rw [set_vec_ok_length hsv]
            exact hbp
          · exact hbr
          · exact hbt
      | rotation =>
        rw [hk, set_rotation_eq] at h
        injection h with h1 h2
        subst h1
        intro p hp
        rcases mem_updateBody hp with hp1 | rfl
        · exact hb p hp1
        · obtain ⟨hbp, hbr, hbt⟩ := hb _ (lookup_mem hb2)
          have hsv : set_vec [0, 0, 0, 0] b.rotations frame m.axis v
              = ((set_vec [0, 0, 0, 0] b.rotations frame m.axis v).1, none) := by
            rw [← h2]
          refine ⟨?_, ?_, ?_⟩
          · exact hbp
          · show (set_vec [0, 0, 0, 0] b.rotations frame m.axis v).1.length = n
            rw [set_vec_ok_length hsv]
            exact hbr
          · exact hbt

theorem process_mappings_ok_bodies {ms : List ColumnMapping} {t : Take}
    {frame : Int} {values : List String} {t' : Take} {n : Nat}
    (h : process_mappings t ms frame values = (t', none))
    (hb : bodies_len t n) : bodies_len t' n := by
  induction ms generalizing t with
  | nil =>
    injection h with h1 h2
    exact h1 ▸ hb
  | cons m rest ih =>
    simp only [process_mappings] at h
    split at h
    case h_1 t1 e happ => injection h with h1 h2; cases h2
    case h_2 t1 happ => exact ih h (apply_mapping_ok_bodies happ hb)

theorem process_row_ok_bodies {t : Take} {row : List String} {t' : Take} {n : Nat}
    (h : process_row t row = (t', none)) (hb : bodies_len t n) :
    bodies_len t' (n + 1) := by
  unfold process_row at h
  split at h
  · injection h with h1 h2; cases h2
  case h_2 c0 h0 =>
    split at h
    · injection h with h1 h2; cases h2
    case h_2 fn hint =>
      split at h
      · injection h with h1 h2; cases h2
      case h_2 c1 h1' =>
        split at h
        · injection h with h1 h2; cases h2
        case h_2 ft hfl =>
          refine process_mappings_ok_bodies h ?_
          intro p hp
          rw [List.mem_map] at hp
          obtain ⟨q, hq, rfl⟩ := hp
          obtain ⟨hq1, hq2, hq3⟩ := hb q hq
          unfold RigidBody.add_frame
          refine ⟨?_, ?_, ?_⟩ <;> simp [hq1, hq2, hq3]

theorem read_data_ok_bodies {rows : List (List String)} {t t' : Take} {n : Nat}
    (h : read_data t rows = (t', none)) (hb : bodies_len t n) :
    bodies_len t' (n + rows.length) := by
  induction rows generalizing t n with
  | nil =>
    injection h with h1 h2
    simpa using h1 ▸ hb
  | cons r rest ih =>
    simp only [read_data] at h
    split at h
    case h_1 t1 e hpr => injection h with h1 h2; cases h2
    case h_2 t1 hpr =>
      have hres := ih h (process_row_ok_bodies hpr hb)
      have harith : n + 1 + rest.length = n + (r :: rest).length := by
        simp only [List.length_cons]
        omega
      rw [← harith]
      exact hres

/-- C1: for every input the parser accepts, every rigid body trajectory holds
exactly one timestamp, one (optional) position and one (optional) rotation
slot per data row: all three lists have length `lines.length - 7`. -/
theorem frame_slot_lengths (lines : List String) (t : Take)
    (h : readCSV lines = Except.ok t)
    (p : String × RigidBody) (hp : p ∈ t.rigid_bodies) :
    p.2.times.length = lines.length - 7 ∧
      p.2.positions.length = lines.length - 7 ∧
      p.2.rotations.length = lines.length - 7 := by
  unfold readCSV Take.readCSV at h
  split at h
  · cases h
  case h_2 t1 rows hh =>
    split at h
    case h_2 t2 e hrd => cases h
    case h_1 t2 hrd =>
      injection h with h1
      subst h1
      obtain ⟨hrows, hlen7, hbemp⟩ := read_header_ok_inv hh
      have hb0 : bodies_len t1 0 := by
        intro q hq
        obtain ⟨e1, e2, e3⟩ :=
          hbemp (fun q hq => absurd hq (List.not_mem_nil q)) q hq
        rw [e1, e2, e3]
        exact ⟨rfl, rfl, rfl⟩
      have hbn := read_data_ok_bodies hrd hb0
      have hrl : rows.length = lines.length - 7 := by
        rw [hrows, List.length_drop, List.length_map]
      obtain ⟨l1, l2, l3⟩ := hbn p hp
      rw [Nat.zero_add, hrl] at l1 l2 l3
      exact ⟨l3, l1, l2⟩

/-- The body produced by parsing `demoLines`. -/
def demoBody : RigidBody :=
  ⟨"Body1", "1", [some [1, 2, 3]], [none], [0]⟩

/-- The take produced by parsing `demoLines`. -/
def demoTake : Take :=
  ⟨120, some "Quaternion", "Meters", [("Body1", demoBody)],
    [("Format Version", "1.2"), ("Rotation Type", "Quaternion")],
    ["Rigid Body", "Rigid Body", "Rigid Body"],
    ["Body1", "Body1", "Body1"],
    ["Position", "Position", "Position"],
    ["X", "Y", "Z"], [],
    [⟨"Body1", SetterKind.position, 0, 0⟩,
     ⟨"Body1", SetterKind.position, 1, 1⟩,
     ⟨"Body1", SetterKind.position, 2, 2⟩]⟩

/-- Witness for C1 on the concrete demo file. -/
theorem frame_slot_lengths_witness :
    readCSV demoLines = Except.ok demoTake ∧
      ("Body1", demoBody) ∈ demoTake.rigid_bodies ∧
      (demoBody.times.length = demoLines.length - 7 ∧
        demoBody.positions.length = demoLines.length - 7 ∧
        demoBody.rotations.length = demoLines.length - 7) :=
  ⟨by decide, by decide,
    frame_slot_lengths demoLines demoTake (by decide) ("Body1", demoBody) (by decide)⟩

/-! ### Claim C9: too-short rows are fatal -/

theorem toOption_isSome_exists {ε α : Type} {x : Except ε α}
    (h : x.toOption.isSome = true) : ∃ a, x = Except.ok a := by
  cases x with
  | error e => simp [Except.toOption] at h
  | ok a => exact ⟨a, rfl⟩

theorem lookup_map_add_frame (q : ℚ) (k : String)
    (bs : List (String × RigidBody)) :
    lookup k (bs.map (fun p => (p.1, p.2.add_frame q)))
      = (lookup k bs).map (fun b => b.add_frame q) := by
  induction bs with
  | nil => rfl
  | cons p rest ih =>
    by_cases hp : p.1 = k <;> simp [lookup, hp, ih]

theorem pyGet_nat_ok_lt {α : Type} {l : List α} {n : Nat} {a : α}
    (h : pyGet l (n : Int) = Except.ok a) : n < l.length := by
  obtain ⟨j, hj, hidx, _⟩ := pyGet_ok_inv h
  rw [pyIdx_natCast] at hidx
  omega

/-- Any exception a setter raises on a value that is empty or parseable is the
out-of-range `IndexError`. -/
theorem set_vec_err {zero : List ℚ} {xs : List (Option (List ℚ))} {frame : Int}
    {axis : Nat} {value : String} {e : String}
    (h : (set_vec zero xs frame axis value).2 = some e)
    (hval : value = "" ∨ (pyFloat value).toOption.isSome = true) :
    e = "IndexError: list index out of range" := by
  unfold set_vec at h
  split at h
  case isTrue hv => cases h
  case isFalse hv =>
    split at h
    case h_1 e2 hget =>
      injection h with h1
      rw [← h1]
      exact pyGet_error_msg hget
    case h_2 cur hget =>
      split at h
      case h_1 e2 halloc =>
        injection h with h1
        rw [← h1]
        cases hc : cur with
        | none =>
          rw [hc] at halloc
          exact pySet_error_msg halloc
        | some w => rw [hc] at halloc; cases halloc
      case h_2 xs1 halloc =>
        split at h
        case h_1 e2 hfl =>
          exfalso
          rcases hval with hval | hval
          · exact hv hval
          · rw [hfl] at hval
            simp [Except.toOption] at hval
        case h_2 v hfl =>
          split at h
          case h_1 e2 hget2 =>
            injection h with h1
            rw [← h1]
            exact pyGet_error_msg hget2
          case h_2 hget2 =>
            exfalso
            cases hc : cur with
            | none =>
              rw [hc] at halloc
              have hsame := pyGet_pySet_same halloc
              rw [hget2] at hsame
              injection hsame with h3
              cases h3
            | some w =>
              rw [hc] at halloc
              injection halloc with h3
              subst h3
              rw [hget2] at hget
              injection hget with h3
              rw [hc] at h3
              cases h3
          case h_3 vec hget2 =>
            split at h
            case h_1 e2 hs1 =>
              injection h with h1
              rw [← h1]
              exact pySet_error_msg hs1
            case h_2 vec2 hs1 =>
              split at h
              case h_1 e2 hs2 =>
                injection h with h1
                rw [← h1]
                exact pySet_error_msg hs2
              case h_2 xs2 hs2 => cases h

/-- Any exception a mapping application raises, when the setter is bound to an
existing body and the mapped value (if readable) is empty or parseable, is the
out-of-range `IndexError`. -/
theorem apply_mapping_err {t : Take} {m : ColumnMapping} {frame : Int}
    {values : List String} {t1 : Take} {e : String}
    (h : apply_mapping t m frame values = (t1, some e))
    (hbody : (lookup m.target t.rigid_bodies).isSome = true)
    (hval : ∀ v, pyGet values (m.column : Int) = Except.ok v →
      v = "" ∨ (pyFloat v).toOption.isSome = true) :
    e = "IndexError: list index out of range" := by
  unfold apply_mapping at h
  split at h
  case h_1 e2 hg =>
    injection h with h1 h2
    injection h2 with h3
    rw [← h3]
    exact pyGet_error_msg hg
  case h_2 v hg =>
    split at h
    case h_1 hl => rw [hl] at hbody; simp at hbody
    case h_2 b hb2 =>
      cases hk : m.kind with
      | position =>
        rw [hk, set_position_eq] at h
        injection h with h1 h2
        exact set_vec_err h2 (hval v hg)
      | rotation =>
        rw [hk, set_rotation_eq] at h
        injection h with h1 h2
        exact set_vec_err h2 (hval v hg)

theorem apply_mapping_lookup_isSome (t : Take) (m : ColumnMapping) (frame : Int)
    (values : List String) (k : String) :
    (lookup k ((apply_mapping t m frame values).1).rigid_bodies).isSome
      = (lookup k t.rigid_bodies).isSome := by
  unfold apply_mapping
  split
  · rfl
  split
  · rfl
  case h_2 b hb2 =>
    cases m.kind with
    | position =>
      show (lookup k (updateBody m.target _ t.rigid_bodies)).isSome = _
      rw [lookup_isSome_updateBody]
    | rotation =>
      show (lookup k (updateBody m.target _ t.rigid_bodies)).isSome = _
      rw [lookup_isSome_updateBody]

theorem apply_mapping_ok_col {t : Take} {m : ColumnMapping} {frame : Int}
    {values : List String} {t1 : Take}
    (h : apply_mapping t m frame values = (t1, none)) :
    ∃ v, pyGet values (m.column : Int) = Except.ok v := by
  unfold apply_mapping at h
  split at h
  case h_1 e hg => injection h with h1 h2; cases h2
  case h_2 v hg => exact ⟨v, hg⟩

/-- If some mapping's column lies beyond the row's value fields, the mapping
loop stops with the out-of-range `IndexError`. -/
theorem process_mappings_short_err {ms : List ColumnMapping} {t : Take}
    {frame : Int} {values : List String}
    (hbodies : ∀ m ∈ ms, (lookup m.target t.rigid_bodies).isSome = true)
    (hvals : ∀ m ∈ ms, ∀ v, pyGet values (m.column : Int) = Except.ok v →
      v = "" ∨ (pyFloat v).toOption.isSome = true)
    (h : ∃ m ∈ ms, values.length < m.column) :
    (process_mappings t ms frame values).2
      = some "IndexError: list index out of range" := by
  induction ms generalizing t with
  | nil =>
    obtain ⟨m, hm, _⟩ := h
    cases hm
  | cons m0 rest ih =>
    simp only [process_mappings]
    cases ha : apply_mapping t m0 frame values with
    | mk t1 err =>
      cases err with
      | some e =>
        have he := apply_mapping_err ha (hbodies m0 (List.mem_cons_self _ _))
          (hvals m0 (List.mem_cons_self _ _))
        rw [he]
      | none =>
        have hrec : (process_mappings t1 rest frame values).2
            = some "IndexError: list index out of range" := by
          refine ih ?_ ?_ ?_
          · intro m hm
            rw [show t1 = (apply_mapping t m0 frame values).1 from by rw [ha],
              apply_mapping_lookup_isSome]
            exact hbodies m (List.mem_cons_of_mem _ hm)
          · intro m hm
            exact hvals m (List.mem_cons_of_mem _ hm)
          · obtain ⟨m, hm, hcol⟩ := h
            rcases List.mem_cons.mp hm with rfl | hm
            · exfalso
              obtain ⟨v, hv⟩ := apply_mapping_ok_col ha
              have := pyGet_nat_ok_lt hv
              omega
            · exact ⟨m, hm, hcol⟩
        exact hrec

/-- C9: a frame row with fewer fields than the schema requires (fewer than two
leading fields, or fewer data values than some mapping's column index) makes
the parse fail for that row with the fatal out-of-range error — the missing
columns are not skipped.  The side hypotheses only say the fields that are
present are well formed, so that no other exception fires first. -/
theorem short_row_fatal_index_error (t : Take) (row : List String)
    (hwf0 : 1 ≤ row.length → (pyInt (row.getD 0 "")).toOption.isSome = true)
    (hwf1 : 2 ≤ row.length → (pyFloat (row.getD 1 "")).toOption.isSome = true)
    (hbodies : ∀ m ∈ t.column_map, (lookup m.target t.rigid_bodies).isSome = true)
    (hvals : ∀ m ∈ t.column_map, ∀ v, pyGet (row.drop 2) (m.column : Int) = Except.ok v →
      v = "" ∨ (pyFloat v).toOption.isSome = true)
    (h : row.length < 2 ∨ ∃ m ∈ t.column_map, (row.drop 2).length < m.column) :
    (process_row t row).2 = some "IndexError: list index out of range" := by
  by_cases hl2 : row.length < 2
  · cases hrow : row with
    | nil =>
      have hg0 : pyGet ([] : List String) (0 : Int)
          = Except.error "IndexError: list index out of range" := by
        rw [show ((0 : Int)) = ((0 : Nat) : Int) from rfl,
          pyGet_nat_ge ([] : List String) 0 (by simp)]
      unfold process_row
      rw [hg0]
    | cons c0 rest0 =>
      cases rest0 with
      | cons c1 r2 =>
        exfalso
        rw [hrow] at hl2
        simp only [List.length_cons] at hl2
        omega
      | nil =>
        have hg0 : pyGet [c0] (0 : Int) = Except.ok c0 := by
          rw [show ((0 : Int)) = ((0 : Nat) : Int) from rfl,
            pyGet_nat_lt [c0] 0 (by simp)]
          rfl
        obtain ⟨n, hn⟩ := toOption_isSome_exists (hwf0 (by rw [hrow]; simp))
        rw [hrow] at hn
        have hn' : pyInt c0 = Except.ok n := hn
        have hg1 : pyGet [c0] (1 : Int)
            = Except.error "IndexError: list index out of range" := by
          rw [show ((1 : Int)) = ((1 : Nat) : Int) from rfl,
            pyGet_nat_ge [c0] 1 (by simp)]
        unfold process_row
        simp only [hg0, hn', hg1]
  · rcases h with h | hex
    · exact absurd h hl2
    · push_neg at hl2
      obtain ⟨c0, c1, vrest, hrow⟩ : ∃ c0 c1 vrest, row = c0 :: c1 :: vrest := by
        cases row with
        | nil => simp at hl2
        | cons a r =>
          cases r with
          | nil => simp at hl2
          | cons b r2 => exact ⟨a, b, r2, rfl⟩
      subst hrow
      have hg0 : pyGet (c0 :: c1 :: vrest) (0 : Int) = Except.ok c0 := by
        rw [show ((0 : Int)) = ((0 : Nat) : Int) from rfl,
          pyGet_nat_lt (c0 :: c1 :: vrest) 0 (by simp)]
        rfl
      obtain ⟨n, hn⟩ := toOption_isSome_exists (hwf0 (by simp))
      have hn' : pyInt c0 = Except.ok n := hn
      have hg1 : pyGet (c0 :: c1 :: vrest) (1 : Int) = Except.ok c1 := by
        rw [show ((1 : Int)) = ((1 : Nat) : Int) from rfl,
          pyGet_nat_lt (c0 :: c1 :: vrest) 1 (by simp)]
        rfl
      obtain ⟨q, hq⟩ := toOption_isSome_exists (hwf1 (by simp))
      have hq' : pyFloat c1 = Except.ok q := hq
      unfold process_row
      simp only [hg0, hn', hg1, hq']
      refine process_mappings_short_err ?_ ?_ ?_
      · intro m hm
        show (lookup m.target
          (t.rigid_bodies.map (fun p => (p.1, p.2.add_frame q)))).isSome = true
        rw [lookup_map_add_frame]
        have hbm := hbodies m hm
        cases hl : lookup m.target t.rigid_bodies with
        | none => rw [hl] at hbm; simp at hbm
        | some b => rfl
      · intro m hm
        exact hvals m hm
      · exact hex

/-- A post-header state whose single mapping points at value column 5, used by
the C9 witness. -/
def c9Take : Take :=
  ⟨120, some "Quaternion", "Meters", [("Body1", ⟨"Body1", "1", [], [], []⟩)],
    [], [], [], [], [], [], [⟨"Body1", SetterKind.position, 0, 5⟩]⟩

/-- Witness for C9: a row with one value field while a mapping wants column 5. -/
theorem short_row_fatal_index_error_witness :
    ((1 ≤ (["0", "0.0", "1.0"] : List String).length →
        (pyInt ((["0", "0.0", "1.0"] : List String).getD 0 "")).toOption.isSome = true) ∧
      (2 ≤ (["0", "0.0", "1.0"] : List String).length →
        (pyFloat ((["0", "0.0", "1.0"] : List String).getD 1 "")).toOption.isSome = true) ∧
      (∀ m ∈ c9Take.column_map, (lookup m.target c9Take.rigid_bodies).isSome = true) ∧
      ((["0", "0.0", "1.0"] : List String).length < 2 ∨
        ∃ m ∈ c9Take.column_map,
          ((["0", "0.0", "1.0"] : List String).drop 2).length < m.column)) ∧
    (process_row c9Take ["0", "0.0", "1.0"]).2
      = some "IndexError: list index out of range" :=
  ⟨⟨by decide, by decide, by decide, by decide⟩,
    short_row_fatal_index_error c9Take ["0", "0.0", "1.0"]
      (by decide) (by decide) (by decide)
      (by intro m hm v hv
          exfalso
          have hlt := pyGet_nat_ok_lt hv
          have hm5 : m.column = 5 := by
            rcases List.mem_singleton.mp hm with rfl
            rfl
          rw [hm5] at hlt
          simp at hlt)
      (by decide)⟩

/-! ### Claim C3: what happens to non-contiguous frame numbers -/

/-- Every allocated position vector has 3 components and every allocated
rotation vector has 4. -/
def vecs_ok (t : Take) : Prop :=
  ∀ p ∈ t.rigid_bodies,
    (∀ o ∈ p.2.positions, ∀ w ∈ o, w.length = 3) ∧
    (∀ o ∈ p.2.rotations, ∀ w ∈ o, w.length = 4)

/-- The declared frame number parses and is a valid Python index into the
`j + 1` slots available while row `j` is processed. -/
def frame_num_ok (j : Nat) (s : String) : Bool :=
  match pyInt s with
  | Except.ok nj => decide (-(j + 1 : Int) ≤ nj) && decide (nj ≤ (j : Int))
  | Except.error _ => false

/-- The mapped value is empty or parses as a float. -/
def value_ok (s : String) : Bool :=
  s == "" || (pyFloat s).toOption.isSome

/-- All conditions on data row `j` other than contiguity of frame numbers. -/
def row_ok (cmap : List ColumnMapping) (j : Nat) (row : List String) : Bool :=
  decide (2 ≤ row.length) && frame_num_ok j (row.getD 0 "") &&
    (pyFloat (row.getD 1 "")).toOption.isSome &&
    cmap.all (fun m => decide (m.column < (row.drop 2).length) &&
      value_ok ((row.drop 2).getD m.column ""))

/-- Every mapping's axis index is in range for its vector kind (always true
for header-generated mappings). -/
def axes_ok (cmap : List ColumnMapping) : Bool :=
  cmap.all (fun m => match m.kind with
    | SetterKind.position => decide (m.axis < 3)
    | SetterKind.rotation => decide (m.axis < 4))

/-- Every mapping's setter is bound to a body present in the take. -/
def targets_ok (cmap : List ColumnMapping) (t : Take) : Bool :=
  cmap.all (fun m => (lookup m.target t.rigid_bodies).isSome)

theorem pyIdx_range {len : Nat} {i : Int} (h1 : -(len : Int) ≤ i) (h2 : i < len) :
    0 ≤ pyIdx len i ∧ (pyIdx len i).toNat < len := by
  unfold pyIdx
  split <;> constructor <;> omega

theorem pyGet_pos {α : Type} (l : List α) (i : Int)
    (h0 : 0 ≤ pyIdx l.length i) (hlt : (pyIdx l.length i).toNat < l.length) :
    pyGet l i = Except.ok (l.get ⟨(pyIdx l.length i).toNat, hlt⟩) := by
  unfold pyGet
  rw [dif_pos ⟨h0, hlt⟩]

theorem pySet_pos {α : Type} (l : List α) (i : Int) (a : α)
    (h0 : 0 ≤ pyIdx l.length i) (hlt : (pyIdx l.length i).toNat < l.length) :
    pySet l i a = Except.ok (l.set (pyIdx l.length i).toNat a) := by
  unfold pySet
  rw [if_pos ⟨h0, hlt⟩]

/-- Forward success of a setter: in-range frame, parseable-or-empty value and
in-range axis guarantee no exception. -/
theorem set_vec_ok_of {zero : List ℚ} {xs : List (Option (List ℚ))} {frame : Int}
    {axis : Nat} {value : String}
    (hfr : 0 ≤ pyIdx xs.length frame ∧ (pyIdx xs.length frame).toNat < xs.length)
    (hval : value = "" ∨ (pyFloat value).toOption.isSome = true)
    (hax : axis < ((xs.getD (pyIdx xs.length frame).toNat none).getD zero).length) :
    (set_vec zero xs frame axis value).2 = none := by
  by_cases hv : value = ""
  · unfold set_vec
    rw [if_pos hv]
  · obtain ⟨h0, hlt⟩ := hfr
    have hg : pyGet xs frame
        = Except.ok (xs.get ⟨(pyIdx xs.length frame).toNat, hlt⟩) :=
      pyGet_pos xs frame h0 hlt
    have hok : (pyFloat value).toOption.isSome = true := by
      rcases hval with hval | hval
      · exact absurd hval hv
      · exact hval
    obtain ⟨q, hq⟩ := toOption_isSome_exists hok
    rw [getD_eq_get xs (pyIdx xs.length frame).toNat none hlt] at hax
    unfold set_vec
    rw [if_neg hv]
    cases hcur : xs.get ⟨(pyIdx xs.length frame).toNat, hlt⟩ with
    | none =>
      rw [hcur] at hax
      have halloc : pySet xs frame (some zero)
          = Except.ok (xs.set (pyIdx xs.length frame).toNat (some zero)) :=
        pySet_pos xs frame (some zero) h0 hlt
      have hg2 := pyGet_pySet_same halloc
      have hs1 : pySet zero (axis : Int) q = Except.ok (zero.set axis q) :=
        pySet_nat_lt zero axis q (by simpa using hax)
      have hlt2 : (pyIdx (xs.set (pyIdx xs.length frame).toNat (some zero)).length
          frame).toNat < (xs.set (pyIdx xs.length frame).toNat (some zero)).length := by
        rw [List.length_set]
        exact hlt
      have h02 : 0 ≤ pyIdx (xs.set (pyIdx xs.length frame).toNat (some zero)).length
          frame := by
        rw [List.length_set]
        exact h0
      have hs2 := pySet_pos (xs.set (pyIdx xs.length frame).toNat (some zero)) frame
        (some (zero.set axis q)) h02 hlt2
      simp only [hg, hcur, halloc, hq, hg2, hs1, hs2]
    | some vec =>
      rw [hcur] at hax
      have hs1 : pySet vec (axis : Int) q = Except.ok (vec.set axis q) :=
        pySet_nat_lt vec axis q (by simpa using hax)
      have hs2 := pySet_pos xs frame (some (vec.set axis q)) h0 hlt
      simp only [hg, hcur, hq, hs1, hs2]

/-- Forward success of one mapping application. -/
theorem apply_mapping_ok_of {t : Take} {m : ColumnMapping} {frame : Int}
    {values : List String} {n : Nat}
    (hlen : bodies_len t n) (hvec : vecs_ok t)
    (hbody : (lookup m.target t.rigid_bodies).isSome = true)
    (hcol : m.column < values.length)
    (hval : value_ok (values.getD m.column "") = true)
    (hax : (match m.kind with
            | SetterKind.position => decide (m.axis < 3)
            | SetterKind.rotation => decide (m.axis < 4)) = true)
    (hfr : 0 ≤ pyIdx n frame ∧ (pyIdx n frame).toNat < n) :
    (apply_mapping t m frame values).2 = none := by
  have hg : pyGet values ((m.column : Nat) : Int)
      = Except.ok (values.get ⟨m.column, hcol⟩) := pyGet_nat_lt values m.column hcol
  obtain ⟨b, hb⟩ := Option.isSome_iff_exists.mp hbody
  have hval' : values.get ⟨m.column, hcol⟩ = ""
      ∨ (pyFloat (values.get ⟨m.column, hcol⟩)).toOption.isSome = true := by
    rw [← getD_eq_get values m.column "" hcol]
    unfold value_ok at hval
    rcases (Bool.or_eq_true _ _).mp hval with h | h
    · left
      exact eq_of_beq h
    · right
      exact h
  obtain ⟨hbp, hbr, hbt⟩ := hlen _ (lookup_mem hb)
  obtain ⟨hvp, hvr⟩ := hvec _ (lookup_mem hb)
  unfold apply_mapping
  rw [hg, hb]
  cases hk : m.kind with
  | position =>
    show (b.set_position frame m.axis (values.get ⟨m.column, hcol⟩)).2 = none
    rw [set_position_eq]
    have hax3 : m.axis < 3 := by
      rw [hk] at hax
      exact of_decide_eq_true hax
    apply set_vec_ok_of
    · rw [hbp]
      exact hfr
    · exact hval'
    · cases hgd : b.positions.getD (pyIdx b.positions.length frame).toNat none with
      | none => simpa using hax3
      | some w =>
        have hjlt : (pyIdx b.positions.length frame).toNat < b.positions.length := by
          rw [hbp]
          exact hfr.2
        have hsw : b.positions.get ⟨(pyIdx b.positions.length frame).toNat, hjlt⟩
            = some w := by
          rw [← getD_eq_get _ _ none hjlt]
          exact hgd
        have hmem : (some w) ∈ b.positions := hsw ▸ b.positions.get_mem _ _
        have hw : w.length = 3 := hvp (some w) hmem w rfl
        simpa [hw] using hax3
  | rotation =>
    show (b.set_rotation frame m.axis (values.get ⟨m.column, hcol⟩)).2 = none
    rw [set_rotation_eq]
    have hax4 : m.axis < 4 := by
      rw [hk] at hax
      exact of_decide_eq_true hax
    apply set_vec_ok_of
    · rw [hbr]
      exact hfr
    · exact hval'
    · cases hgd : b.rotations.getD (pyIdx b.rotations.length frame).toNat none with
      | none => simpa using hax4
      | some w =>
        have hjlt : (pyIdx b.rotations.length frame).toNat < b.rotations.length := by
          rw [hbr]
          exact hfr.2
        have hsw : b.rotations.get ⟨(pyIdx b.rotations.length frame).toNat, hjlt⟩
            = some w := by
          rw [← getD_eq_get _ _ none hjlt]
          exact hgd
        have hmem : (some w) ∈ b.rotations := hsw ▸ b.rotations.get_mem _ _
        have hw : w.length = 4 := hvr (some w) hmem w rfl
        simpa [hw] using hax4

theorem set_vec_ok_vecs {zero : List ℚ} {xs xs' : List (Option (List ℚ))}
    {frame : Int} {axis : Nat} {value : String} {d : Nat}
    (h : set_vec zero xs frame axis value = (xs', none))
    (hz : zero.length = d)
    (hv : ∀ o ∈ xs, ∀ w ∈ o, w.length = d) :
    ∀ o ∈ xs', ∀ w ∈ o, w.length = d := by
  rcases set_vec_ok_inv h with ⟨_, rfl⟩ | ⟨_, j, hj, hidx, v, hfl, hax, rfl⟩
  · exact hv
  · intro o ho w hw
    rcases List.mem_or_eq_of_mem_set ho with ho | rfl
    · exact hv o ho w hw
    · rw [Option.mem_def] at hw
      injection hw with hw2
      rw [← hw2, List.length_set]
      cases hgd : xs.getD j none with
      | none => simpa using hz
      | some u =>
        have hjq : xs.get ⟨j, hj⟩ = some u := by
          rw [← getD_eq_get _ _ none hj]
          exact hgd
        have hmem : (some u) ∈ xs := hjq ▸ xs.get_mem _ _
        simpa using hv (some u) hmem u rfl

theorem apply_mapping_ok_vecs {t : Take} {m : ColumnMapping} {frame : Int}
    {values : List String} {t' : Take}
    (h : apply_mapping t m frame values = (t', none))
    (hv : vecs_ok t) : vecs_ok t' := by
  unfold apply_mapping at h
  split at h
  · injection h with h1 h2; cases h2
  case h_2 v hg =>
    split at h
    · injection h with h1 h2; cases h2
    case h_2 b hb2 =>
      cases hk : m.kind with
      | position =>
        rw [hk, set_position_eq] at h
        injection h with h1 h2
        subst h1
        intro p hp
        rcases mem_updateBody hp with hp1 | rfl
        · exact hv p hp1
        · obtain ⟨hvp, hvr⟩ := hv _ (lookup_mem hb2)
          have hsv : set_vec [0, 0, 0] b.positions frame m.axis v
              = ((set_vec [0, 0, 0] b.positions frame m.axis v).1, none) := by
            rw [← h2]
          exact ⟨set_vec_ok_vecs hsv (by simp) hvp, hvr⟩
      | rotation =>
        rw [hk, set_rotation_eq] at h
        injection h with h1 h2
        subst h1
        intro p hp
        rcases mem_updateBody hp with hp1 | rfl
        · exact hv p hp1
        · obtain ⟨hvp, hvr⟩ := hv _ (lookup_mem hb2)
          have hsv : set_vec [0, 0, 0, 0] b.rotations frame m.axis v
              = ((set_vec [0, 0, 0, 0] b.rotations frame m.axis v).1, none) := by
            rw [← h2]
          exact ⟨hvp, set_vec_ok_vecs hsv (by simp) hvr⟩

theorem process_mappings_ok_vecs {ms : List ColumnMapping} {t : Take}
    {frame : Int} {values : List String} {t' : Take}
    (h : process_mappings t ms frame values = (t', none))
    (hv : vecs_ok t) : vecs_ok t' := by
  induction ms generalizing t with
  | nil =>
    injection h with h1 h2
    exact h1 ▸ hv
  | cons m rest ih =>
    simp only [process_mappings] at h
    split at h
    case h_1 t1 e happ => injection h with h1 h2; cases h2
    case h_2 t1 happ => exact ih h (apply_mapping_ok_vecs happ hv)

theorem add_frame_bodies_len {t : Take} {q : ℚ} {n : Nat} (hb : bodies_len t n) :
    bodies_len
      { t with rigid_bodies := t.rigid_bodies.map (fun p => (p.1, p.2.add_frame q)) }
      (n + 1) := by
  intro p hp
  rw [List.mem_map] at hp
  obtain ⟨r, hr, rfl⟩ := hp
  obtain ⟨h1, h2, h3⟩ := hb r hr
  unfold RigidBody.add_frame
  refine ⟨?_, ?_, ?_⟩ <;> simp [h1, h2, h3]

theorem add_frame_vecs {t : Take} {q : ℚ} (hv : vecs_ok t) :
    vecs_ok
      { t with rigid_bodies := t.rigid_bodies.map (fun p => (p.1, p.2.add_frame q)) } := by
  intro p hp
  rw [List.mem_map] at hp
  obtain ⟨r, hr, rfl⟩ := hp
  obtain ⟨h1, h2⟩ := hv r hr
  unfold RigidBody.add_frame
  constructor
  · intro o ho w hw
    rcases List.mem_append.mp ho with ho | ho
    · exact h1 o ho w hw
    · rcases List.mem_singleton.mp ho with rfl
      exact Option.noConfusion hw
  · intro o ho w hw
    rcases List.mem_append.mp ho with ho | ho
    · exact h2 o ho w hw
    · rcases List.mem_singleton.mp ho with rfl
      exact Option.noConfusion hw

theorem lookup_add_frame_isSome (q : ℚ) (k : String) (bs : List (String × RigidBody)) :
    (lookup k (bs.map (fun p => (p.1, p.2.add_frame q)))).isSome
      = (lookup k bs).isSome := by
  rw [lookup_map_add_frame]
  cases lookup k bs <;> rfl

theorem apply_mapping_fst_column_map (t : Take) (m : ColumnMapping) (frame : Int)
    (values : List String) :
    ((apply_mapping t m frame values).1).column_map = t.column_map := by
  unfold apply_mapping
  split
  · rfl
  split
  · rfl
  case h_2 b hb2 =>
    cases m.kind <;> rfl

theorem process_mappings_fst_column_map (ms : List ColumnMapping) (t : Take)
    (frame : Int) (values : List String) :
    ((process_mappings t ms frame values).1).column_map = t.column_map := by
  induction ms generalizing t with
  | nil => rfl
  | cons m rest ih =>
    simp only [process_mappings]
    cases ha : apply_mapping t m frame values with
    | mk t1 err =>
      have h1 : t1.column_map = t.column_map := by
        rw [show t1 = (apply_mapping t m frame values).1 from by rw [ha]]
        exact apply_mapping_fst_column_map t m frame values
      cases err with
      | some e => exact h1
      | none =>
        show ((process_mappings t1 rest frame values).1).column_map = t.column_map
        rw [ih t1, h1]

theorem process_mappings_lookup_isSome (ms : List ColumnMapping) (t : Take)
    (frame : Int) (values : List String) (k : String) :
    (lookup k ((process_mappings t ms frame values).1).rigid_bodies).isSome
      = (lookup k t.rigid_bodies).isSome := by
  induction ms generalizing t with
  | nil => rfl
  | cons m rest ih =>
    simp only [process_mappings]
    cases ha : apply_mapping t m frame values with
    | mk t1 err =>
      have h1 : (lookup k t1.rigid_bodies).isSome = (lookup k t.rigid_bodies).isSome := by
        rw [show t1 = (apply_mapping t m frame values).1 from by rw [ha]]
        exact apply_mapping_lookup_isSome t m frame values k
      cases err with
      | some e => exact h1
      | none =>
        show (lookup k ((process_mappings t1 rest frame values).1).rigid_bodies).isSome
          = (lookup k t.rigid_bodies).isSome
        rw [ih t1, h1]

theorem process_row_fst_column_map (t : Take) (row : List String) :
    ((process_row t row).1).column_map = t.column_map := by
  unfold process_row
  split
  · rfl
  split
  · rfl
  split
  · rfl
  split
  · rfl
  rw [process_mappings_fst_column_map]

theorem process_row_lookup_isSome (t : Take) (row : List String) (k : String) :
    (lookup k ((process_row t row).1).rigid_bodies).isSome
      = (lookup k t.rigid_bodies).isSome := by
  unfold process_row
  split
  · rfl
  split
  · rfl
  split
  · rfl
  split
  · rfl
  rw [process_mappings_lookup_isSome]
  exact lookup_add_frame_isSome _ k t.rigid_bodies

theorem process_row_ok_vecs {t : Take} {row : List String} {t' : Take}
    (h : process_row t row = (t', none)) (hv : vecs_ok t) : vecs_ok t' := by
  unfold process_row at h
  split at h
  · injection h with h1 h2; cases h2
  case h_2 c0 h0 =>
    split at h
    · injection h with h1 h2; cases h2
    case h_2 fn hint =>
      split at h
      · injection h with h1 h2; cases h2
      case h_2 c1 h1' =>
        split at h
        · injection h with h1 h2; cases h2
        case h_2 ft hfl =>
          exact process_mappings_ok_vecs h (add_frame_vecs hv)

/-- Forward success of the mapping loop under in-range conditions. -/
theorem process_mappings_ok_of {ms : List ColumnMapping} {t : Take} {frame : Int}
    {values : List String} {n : Nat}
    (hlen : bodies_len t n) (hvec : vecs_ok t)
    (htg : ∀ m ∈ ms, (lookup m.target t.rigid_bodies).isSome = true)
    (hax : ∀ m ∈ ms, (match m.kind with
        | SetterKind.position => decide (m.axis < 3)
        | SetterKind.rotation => decide (m.axis < 4)) = true)
    (hvals : ∀ m ∈ ms, m.column < values.length ∧ value_ok (values.getD m.column "") = true)
    (hfr : 0 ≤ pyIdx n frame ∧ (pyIdx n frame).toNat < n) :
    (process_mappings t ms frame values).2 = none := by
  induction ms generalizing t with
  | nil => rfl
  | cons m rest ih =>
    have hsucc := apply_mapping_ok_of hlen hvec (htg m (List.mem_cons_self _ _))
      (hvals m (List.mem_cons_self _ _)).1 (hvals m (List.mem_cons_self _ _)).2
      (hax m (List.mem_cons_self _ _)) hfr
    simp only [process_mappings]
    cases ha : apply_mapping t m frame values with
    | mk t1 err =>
      cases err with
      | some e =>
        exfalso
        rw [ha] at hsucc
        exact Option.noConfusion hsucc
      | none =>
        have ha' : apply_mapping t m frame values = (t1, none) := ha
        show (process_mappings t1 rest frame values).2 = none
        refine ih (apply_mapping_ok_bodies ha' hlen) (apply_mapping_ok_vecs ha' hvec)
          ?_ ?_ ?_
        · intro m2 hm2
          rw [show t1 = (apply_mapping t m frame values).1 from by rw [ha],
            apply_mapping_lookup_isSome]
          exact htg m2 (List.mem_cons_of_mem _ hm2)
        · intro m2 hm2
          exact hax m2 (List.mem_cons_of_mem _ hm2)
        · intro m2 hm2
          exact hvals m2 (List.mem_cons_of_mem _ hm2)

/-- Forward success of one row whose frame number is in range for the `n + 1`
slots available, regardless of whether it equals the physical row index. -/
theorem process_row_ok_of {t : Take} {row : List String} {n : Nat}
    (hlen : bodies_len t n) (hvec : vecs_ok t)
    (htg : ∀ m ∈ t.column_map, (lookup m.target t.rigid_bodies).isSome = true)
    (hax : ∀ m ∈ t.column_map, (match m.kind with
        | SetterKind.position => decide (m.axis < 3)
        | SetterKind.rotation => decide (m.axis < 4)) = true)
    (hr : row_ok t.column_map n row = true) :
    (process_row t row).2 = none := by
  unfold row_ok at hr
  rw [Bool.and_eq_true, Bool.and_eq_true, Bool.and_eq_true] at hr
  obtain ⟨⟨⟨hl2b, hfnb⟩, hflb⟩, hvalsb⟩ := hr
  have hl2 : 2 ≤ row.length := of_decide_eq_true hl2b
  obtain ⟨c0, c1, vrest, rfl⟩ : ∃ c0 c1 vrest, row = c0 :: c1 :: vrest := by
    cases row with
    | nil => simp at hl2
    | cons a r =>
      cases r with
      | nil => simp at hl2
      | cons b r2 => exact ⟨a, b, r2, rfl⟩
  unfold frame_num_ok at hfnb
  cases hpi : pyInt ((c0 :: c1 :: vrest).getD 0 "") with
  | error e => rw [hpi] at hfnb; cases hfnb
  | ok nj =>
    rw [hpi] at hfnb
    rw [Bool.and_eq_true] at hfnb
    have hnj1 : -(n + 1 : Int) ≤ nj := of_decide_eq_true hfnb.1
    have hnj2 : nj ≤ (n : Int) := of_decide_eq_true hfnb.2
    obtain ⟨q, hq⟩ := toOption_isSome_exists hflb
    have hg0 : pyGet (c0 :: c1 :: vrest) (0 : Int) = Except.ok c0 := by
      rw [show ((0 : Int)) = ((0 : Nat) : Int) from rfl,
        pyGet_nat_lt (c0 :: c1 :: vrest) 0 (by simp)]
      rfl
    have hg1 : pyGet (c0 :: c1 :: vrest) (1 : Int) = Except.ok c1 := by
      rw [show ((1 : Int)) = ((1 : Nat) : Int) from rfl,
        pyGet_nat_lt (c0 :: c1 :: vrest) 1 (by simp)]
      rfl
    have hn' : pyInt c0 = Except.ok nj := hpi
    have hq' : pyFloat c1 = Except.ok q := hq
    unfold process_row
    simp only [hg0, hn', hg1, hq']
    refine process_mappings_ok_of (n := n + 1) (add_frame_bodies_len hlen)
      (add_frame_vecs hvec) ?_ hax ?_ ?_
    · intro m hm
      show (lookup m.target
        (t.rigid_bodies.map (fun p => (p.1, p.2.add_frame q)))).isSome = true
      rw [lookup_add_frame_isSome]
      exact htg m hm
    · intro m hm
      have := List.all_eq_true.mp hvalsb m hm
      rw [Bool.and_eq_true] at this
      exact ⟨of_decide_eq_true this.1, this.2⟩
    · refine pyIdx_range ?_ ?_
      · push_cast
        omega
      · push_cast
        omega

/-- C3 (corrected): the data reader never validates the declared frame
numbers.  The declared number is used directly as a Python list index into the
frame slots appended so far, so any discrepancy that stays in index range —
repeated, decreasing, or even negative frame numbers — is accepted silently
and the parse runs to completion; only a forward gap (an index beyond the
slots appended so far, see the counterexample) aborts the parse. -/
theorem inrange_frame_numbers_unvalidated (t : Take) (rows : List (List String))
    (n : Nat) (hlen : bodies_len t n) (hvec : vecs_ok t)
    (htg : targets_ok t.column_map t = true)
    (hax : axes_ok t.column_map = true)
    (hr : ∀ k, ∀ hk : k < rows.length,
      row_ok t.column_map (n + k) (rows.get ⟨k, hk⟩) = true) :
    (read_data t rows).2 = none := by
  induction rows generalizing t n with
  | nil => rfl
  | cons r rest ih =>
    have htg' : ∀ m ∈ t.column_map, (lookup m.target t.rigid_bodies).isSome = true := by
      intro m hm
      exact List.all_eq_true.mp htg m hm
    have hax' : ∀ m ∈ t.column_map, (match m.kind with
        | SetterKind.position => decide (m.axis < 3)
        | SetterKind.rotation => decide (m.axis < 4)) = true := by
      intro m hm
      exact List.all_eq_true.mp hax m hm
    have hr0 : row_ok t.column_map n r = true := by
      have := hr 0 (by simp)
      simpa using this
    have hpr := process_row_ok_of hlen hvec htg' hax' hr0
    simp only [read_data]
    cases hp : process_row t r with
    | mk t1 err =>
      cases err with
      | some e =>
        exfalso
        rw [hp] at hpr
        exact Option.noConfusion hpr
      | none =>
        have hp' : process_row t r = (t1, none) := hp
        have hcm : t1.column_map = t.column_map := by
          rw [show t1 = (process_row t r).1 from by rw [hp]]
          exact process_row_fst_column_map t r
        show (read_data t1 rest).2 = none
        refine ih t1 (n + 1) (process_row_ok_bodies hp' hlen)
          (process_row_ok_vecs hp' hvec) ?_ ?_ ?_
        · rw [hcm]
          unfold targets_ok
          rw [List.all_eq_true]
          intro m hm
          rw [show t1 = (process_row t r).1 from by rw [hp],
            process_row_lookup_isSome]
          exact htg' m hm
        · rw [hcm]
          exact hax
        · intro k hk
          have hk1 : k + 1 < (r :: rest).length := by
            simp only [List.length_cons]
            omega
          have := hr (k + 1) hk1
          rw [hcm]
          have harith : n + (k + 1) = n + 1 + k := by omega
          rw [harith] at this
          exact this

/-- The same demo file with one extra data row that declares frame number 2
after only frames 0 and 1 exist (rows are physically numbered 0 and 1). -/
def gapLines : List String :=
  demoLines ++ ["2,0.1,4.0,5.0,6.0"]

/-- C3 (counterexample): a forward gap in the declared frame numbers (0 then
2) is not silently ignored: indexing `positions[2]` with only two slots
appended raises `IndexError` and the parse aborts, refuting the claim that any
gap lets the parse run to completion. -/
theorem frame_gap_parse_fails_cx :
    pyInt ((tokenize (gapLines.getD 7 "")).getD 0 "") = Except.ok 0 ∧
      pyInt ((tokenize (gapLines.getD 8 "")).getD 0 "") = Except.ok 2 ∧
      readCSV gapLines = Except.error "IndexError: list index out of range" := by
  refine ⟨by decide, by decide, by decide⟩

/-- Witness for the amended C3: duplicate and non-monotonic frame numbers
(0, 0, 1 over three rows) parse to completion. -/
theorem inrange_frame_numbers_unvalidated_witness :
    (bodies_len c10Take 0 ∧ vecs_ok c10Take ∧
      targets_ok c10Take.column_map c10Take = true ∧
      axes_ok c10Take.column_map = true ∧
      (∀ k, ∀ hk : k < ([[ "0", "0.0", "1.0"], ["0", "0.5", "2.0"], ["1", "1.0", ""]] :
          List (List String)).length,
        row_ok c10Take.column_map (0 + k)
          (([[ "0", "0.0", "1.0"], ["0", "0.5", "2.0"], ["1", "1.0", ""]] :
            List (List String)).get ⟨k, hk⟩) = true)) ∧
    (read_data c10Take
      [["0", "0.0", "1.0"], ["0", "0.5", "2.0"], ["1", "1.0", ""]]).2 = none :=
  ⟨⟨by intro p hp; rcases List.mem_singleton.mp hp with rfl; exact ⟨rfl, rfl, rfl⟩,
    by
      intro p hp
      rcases List.mem_singleton.mp hp with rfl
      refine ⟨?_, ?_⟩ <;> intro o ho <;> exact absurd ho (List.not_mem_nil o),
    by decide, by decide, by decide⟩,
    inrange_frame_numbers_unvalidated c10Take
      [["0", "0.0", "1.0"], ["0", "0.5", "2.0"], ["1", "1.0", ""]] 0
      (by intro p hp; rcases List.mem_singleton.mp hp with rfl; exact ⟨rfl, rfl, rfl⟩)
      (by
        intro p hp
        rcases List.mem_singleton.mp hp with rfl
        refine ⟨?_, ?_⟩ <;> intro o ho <;> exact absurd ho (List.not_mem_nil o))
      (by decide) (by decide) (by decide)⟩

/-! ### Claim C2: presence of a frame slot vs. non-empty mapped values -/

/-- The mappings of `cmap` that actually write to body `L`, vector kind `k`,
on a row whose data values are `values`: same target label, same setter kind,
and a non-empty value string at the mapped column. -/
def live_writes (cmap : List ColumnMapping) (L : String) (k : SetterKind)
    (values : List String) : List ColumnMapping :=
  cmap.filter (fun m =>
    decide (m.target = L) && decide (m.kind = k) &&
      decide (values.getD m.column "" ≠ ""))

/-- Effect of a batch of writes `W` on one frame slot: the slot becomes
non-`none` exactly when it already was or at least one write is live, and any
axis no write targets keeps its previous value (`0` if freshly allocated). -/
def slot_rel (W : List ColumnMapping) (d : Nat) (s s' : Option (List ℚ)) : Prop :=
  (s'.isSome = true ↔ (s.isSome = true ∨ W ≠ [])) ∧
  ((∀ v, s = some v → v.length = d) →
    ∀ v', s' = some v' → v'.length = d ∧
      ∀ ax, (∀ m ∈ W, m.axis ≠ ax) → v'.getD ax 0 = (s.getD []).getD ax 0)

theorem getD_set_of_ne {α : Type} (xs : List α) (a d : α) :
    ∀ i j : Nat, i ≠ j → (xs.set i a).getD j d = xs.getD j d := by
  induction xs with
  | nil => intro i j h; rfl
  | cons x r ih =>
    intro i j h
    cases i with
    | zero =>
      cases j with
      | zero => exact absurd rfl h
      | succ j2 => rfl
    | succ i2 =>
      cases j with
      | zero => rfl
      | succ j2 =>
        have h2 : i2 ≠ j2 := fun hh => h (by rw [hh])
        show (r.set i2 a).getD j2 d = r.getD j2 d
        exact ih i2 j2 h2

theorem getD_set_self {α : Type} (xs : List α) (a d : α) :
    ∀ i : Nat, i < xs.length → (xs.set i a).getD i d = a := by
  induction xs with
  | nil => intro i h; exact absurd h (by simp)
  | cons x r ih =>
    intro i h
    cases i with
    | zero => rfl
    | succ i2 =>
      show (r.set i2 a).getD i2 d = a
      exact ih i2 (by simpa using h)

theorem getD_append_len {α : Type} (xs : List α) (a d : α) :
    (xs ++ [a]).getD xs.length d = a := by
  induction xs with
  | nil => rfl
  | cons x r ih =>
    show (r ++ [a]).getD r.length d = a
    exact ih

theorem getD_append_single {α : Type} (xs : List α) (a d : α) (i : Nat)
    (h : i ≠ xs.length) : (xs ++ [a]).getD i d = xs.getD i d := by
  by_cases hlt : i < xs.length
  · exact getD_append_lt xs [a] i d hlt
  · rw [List.getD_eq_default, List.getD_eq_default]
    · omega
    · rw [List.length_append]
      simp only [List.length_singleton]
      omega

theorem slot_rel_nil (d : Nat) (s : Option (List ℚ)) : slot_rel [] d s s := by
  refine ⟨by simp, ?_⟩
  intro hs v' hv'
  refine ⟨hs v' hv', ?_⟩
  intro ax hax2
  rw [hv']
  rfl

theorem slot_rel_trans {W1 W2 : List ColumnMapping} {d : Nat}
    {s s1 s2 : Option (List ℚ)}
    (h1 : slot_rel W1 d s s1) (h2 : slot_rel W2 d s1 s2) :
    slot_rel (W1 ++ W2) d s s2 := by
  obtain ⟨ha1, hb1⟩ := h1
  obtain ⟨ha2, hb2⟩ := h2
  constructor
  · rw [ha2, ha1]
    constructor
    · rintro ((h | h) | h)
      · exact Or.inl h
      · exact Or.inr (fun hc => h (List.append_eq_nil.mp hc).1)
      · exact Or.inr (fun hc => h (List.append_eq_nil.mp hc).2)
    · rintro (h | h)
      · exact Or.inl (Or.inl h)
      · by_cases h1 : W1 = []
        · subst h1
          exact Or.inr (by simpa using h)
        · exact Or.inl (Or.inr h1)
  · intro hs v' hv'
    have hs1 : ∀ v, s1 = some v → v.length = d := fun v hv => (hb1 hs v hv).1
    refine ⟨(hb2 hs1 v' hv').1, ?_⟩
    intro ax hax2
    have haxW2 : ∀ m ∈ W2, m.axis ≠ ax := fun m hm => hax2 m (List.mem_append_right _ hm)
    have haxW1 : ∀ m ∈ W1, m.axis ≠ ax := fun m hm => hax2 m (List.mem_append_left _ hm)
    cases s1 with
    | none =>
      have hstep2 := (hb2 hs1 v' hv').2 ax haxW2
      have hsn : s = none := by
        rw [← Option.not_isSome_iff_eq_none]
        intro hc
        have hT := ha1.mpr (Or.inl hc)
        simp at hT
      rw [hsn]
      exact hstep2
    | some v1 =>
      have hstep2 := (hb2 hs1 v' hv').2 ax haxW2
      have hstep1 := (hb1 hs v1 rfl).2 ax haxW1
      rw [hstep2]
      exact hstep1

theorem live_writes_cons (m : ColumnMapping) (rest : List ColumnMapping)
    (L : String) (k : SetterKind) (values : List String) :
    live_writes (m :: rest) L k values
      = live_writes [m] L k values ++ live_writes rest L k values := by
  unfold live_writes
  rw [show (m :: rest) = [m] ++ rest from rfl, List.filter_append]

theorem live_writes_single_ne {m : ColumnMapping} {L : String} {k : SetterKind}
    {values : List String} (hne : m.target ≠ L) :
    live_writes [m] L k values = [] := by
  simp [live_writes, hne]

theorem live_writes_single_kind {m : ColumnMapping} {L : String} {k : SetterKind}
    {values : List String} (hne : m.kind ≠ k) :
    live_writes [m] L k values = [] := by
  simp [live_writes, hne]

theorem live_writes_single_empty {m : ColumnMapping} {L : String} {k : SetterKind}
    {values : List String} (hv : values.getD m.column "" = "") :
    live_writes [m] L k values = [] := by
  rw [List.getD_eq_getElem?_getD] at hv
  simp [live_writes, hv]

theorem live_writes_single_live {m : ColumnMapping} {L : String} {k : SetterKind}
    {values : List String} (hL : m.target = L) (hk : m.kind = k)
    (hv : values.getD m.column "" ≠ "") :
    live_writes [m] L k values = [m] := by
  rw [List.getD_eq_getElem?_getD] at hv
  simp [live_writes, hL, hk, hv]

/-- A successful setter call with frame index `n` on `n + 1` slots touches only
slot `n`, and relates that slot's old and new value as one batched write. -/
theorem set_vec_slot_rel {zero : List ℚ} {xs xs' : List (Option (List ℚ))} {n d : Nat}
    {m : ColumnMapping} {value : String}
    (h : set_vec zero xs ((n : Nat) : Int) m.axis value = (xs', none))
    (hlen : xs.length = n + 1) (hzl : zero.length = d)
    (hz : ∀ ax, zero.getD ax 0 = 0) :
    (∀ i, i ≠ n → xs'.getD i none = xs.getD i none) ∧
    slot_rel (if value = "" then [] else [m]) d (xs.getD n none) (xs'.getD n none) := by
  rcases set_vec_ok_inv h with ⟨hv, rfl⟩ | ⟨hv, j, hj, hidx, v, hfl, haxb, rfl⟩
  · refine ⟨fun i hi => rfl, ?_⟩
    rw [if_pos hv]
    exact slot_rel_nil d _
  · rw [pyIdx_natCast] at hidx
    have hjn : j = n := by exact_mod_cast hidx.symm
    subst hjn
    have hlt : j < xs.length := hj
    constructor
    · intro i hi
      exact getD_set_of_ne xs _ none j i (fun hh => hi (by rw [hh]))
    · rw [if_neg hv]
      have hset : (xs.set j (some (((xs.getD j none).getD zero).set m.axis v))).getD j none
          = some (((xs.getD j none).getD zero).set m.axis v) :=
        getD_set_self xs _ none j hlt
      rw [hset]
      constructor
      · constructor
        · intro _
          right
          exact fun hc => List.noConfusion hc
        · intro _
          rfl
      · intro hs v' hv'
        injection hv' with hv'2
        have hbase : ((xs.getD j none).getD zero).length = d := by
          cases hcs : xs.getD j none with
          | none => simpa using hzl
          | some v0 => simpa using hs v0 hcs
        constructor
        · rw [← hv'2, List.length_set]
          exact hbase
        · intro ax hax2
          have hmne : m.axis ≠ ax := hax2 m (List.mem_singleton.mpr rfl)
          rw [← hv'2, getD_set_of_ne _ _ _ m.axis ax hmne]
          cases hcs : xs.getD j none with
          | none =>
            show zero.getD ax 0 = ((none : Option (List ℚ)).getD []).getD ax 0
            rw [hz ax]
            rfl
          | some v0 => rfl

/-- One mapping application with frame index `n` on `n + 1` slots: for every
body label, the looked-up body keeps all slots except slot `n`, whose change
is exactly the live writes of this single mapping. -/
theorem apply_mapping_char {t : Take} {m : ColumnMapping} {n : Nat}
    {values : List String} {t1 : Take}
    (h : apply_mapping t m ((n : Nat) : Int) values = (t1, none))
    (hlen : bodies_len t (n + 1)) :
    ∀ L b, lookup L t.rigid_bodies = some b →
      ∃ b1, lookup L t1.rigid_bodies = some b1 ∧
        (∀ i, i ≠ n → b1.positions.getD i none = b.positions.getD i none ∧
          b1.rotations.getD i none = b.rotations.getD i none) ∧
        slot_rel (live_writes [m] L SetterKind.position values) 3
          (b.positions.getD n none) (b1.positions.getD n none) ∧
        slot_rel (live_writes [m] L SetterKind.rotation values) 4
          (b.rotations.getD n none) (b1.rotations.getD n none) := by
  intro L b hb
  unfold apply_mapping at h
  split at h
  · injection h with h1 h2; cases h2
  case h_2 v hg =>
    split at h
    · injection h with h1 h2; cases h2
    case h_2 b0 hb0 =>
      have hcol : m.column < values.length := pyGet_nat_ok_lt hg
      have hgv : values.getD m.column "" = v := by
        rw [pyGet_nat_lt values m.column hcol] at hg
        rw [getD_eq_get values m.column "" hcol]
        exact Except.ok.inj hg
      by_cases hL : L = m.target
      · rw [hL, hb0] at hb
        injection hb with hbb
        subst hbb
        have hlenb := hlen _ (lookup_mem hb0)
        cases hk : m.kind with
        | position =>
          rw [hk, set_position_eq] at h
          injection h with h1 h2
          subst h1
          have hsv : set_vec [0, 0, 0] b0.positions ((n : Nat) : Int) m.axis v
              = ((set_vec [0, 0, 0] b0.positions ((n : Nat) : Int) m.axis v).1, none) := by
            rw [← h2]
          obtain ⟨hpres, hrel⟩ := set_vec_slot_rel (d := 3) hsv hlenb.1 (by simp)
            (fun ax => by rcases ax with _ | _ | _ | ax4 <;> rfl)
          refine ⟨{ b0 with
            positions := (set_vec [0, 0, 0] b0.positions ((n : Nat) : Int) m.axis v).1 },
            ?_, ?_, ?_, ?_⟩
          · rw [hL]
            exact lookup_updateBody_same m.target _ t.rigid_bodies (by rw [hb0]; rfl)
          · intro i hi
            exact ⟨hpres i hi, rfl⟩
          · by_cases hv0 : v = ""
            · rw [live_writes_single_empty (by rw [hgv]; exact hv0)]
              rw [if_pos hv0] at hrel
              exact hrel
            · rw [live_writes_single_live hL.symm hk (by rw [hgv]; exact hv0)]
              rw [if_neg hv0] at hrel
              exact hrel
          · rw [live_writes_single_kind (by rw [hk]; decide)]
            exact slot_rel_nil 4 _
        | rotation =>
          rw [hk, set_rotation_eq] at h
          injection h with h1 h2
          subst h1
          have hsv : set_vec [0, 0, 0, 0] b0.rotations ((n : Nat) : Int) m.axis v
              = ((set_vec [0, 0, 0, 0] b0.rotations ((n : Nat) : Int) m.axis v).1, none) := by
            rw [← h2]
          obtain ⟨hpres, hrel⟩ := set_vec_slot_rel (d := 4) hsv hlenb.2.1 (by simp)
            (fun ax => by rcases ax with _ | _ | _ | _ | ax5 <;> rfl)
          refine ⟨{ b0 with
            rotations := (set_vec [0, 0, 0, 0] b0.rotations ((n : Nat) : Int) m.axis v).1 },
            ?_, ?_, ?_, ?_⟩
          · rw [hL]
            exact lookup_updateBody_same m.target _ t.rigid_bodies (by rw [hb0]; rfl)
          · intro i hi
            exact ⟨rfl, hpres i hi⟩
          · rw [live_writes_single_kind (by rw [hk]; decide)]
            exact slot_rel_nil 3 _
          · by_cases hv0 : v = ""
            · rw [live_writes_single_empty (by rw [hgv]; exact hv0)]
              rw [if_pos hv0] at hrel
              exact hrel
            · rw [live_writes_single_live hL.symm hk (by rw [hgv]; exact hv0)]
              rw [if_neg hv0] at hrel
              exact hrel
      · have hlive_p : live_writes [m] L SetterKind.position values = [] :=
          live_writes_single_ne (fun hh => hL hh.symm)
        have hlive_r : live_writes [m] L SetterKind.rotation values = [] :=
          live_writes_single_ne (fun hh => hL hh.symm)
        cases hk : m.kind with
        | position =>
          rw [hk, set_position_eq] at h
          injection h with h1 h2
          subst h1
          refine ⟨b, ?_, fun i hi => ⟨rfl, rfl⟩, ?_, ?_⟩
          · rw [lookup_updateBody_ne m.target L _ t.rigid_bodies hL]
            exact hb
          · rw [hlive_p]
            exact slot_rel_nil 3 _
          · rw [hlive_r]
            exact slot_rel_nil 4 _
        | rotation =>
          rw [hk, set_rotation_eq] at h
          injection h with h1 h2
          subst h1
          refine ⟨b, ?_, fun i hi => ⟨rfl, rfl⟩, ?_, ?_⟩
          · rw [lookup_updateBody_ne m.target L _ t.rigid_bodies hL]
            exact hb
          · rw [hlive_p]
            exact slot_rel_nil 3 _
          · rw [hlive_r]
            exact slot_rel_nil 4 _

/-- The whole mapping loop with frame index `n` on `n + 1` slots: every body
keeps all slots except slot `n`, whose change is exactly the batch of live
writes of the processed mappings. -/
theorem process_mappings_char {ms : List ColumnMapping} {t : Take} {n : Nat}
    {values : List String}
    (hlen : bodies_len t (n + 1)) (hvec : vecs_ok t)
    (htg : ∀ m ∈ ms, (lookup m.target t.rigid_bodies).isSome = true)
    (hax : ∀ m ∈ ms, (match m.kind with
        | SetterKind.position => decide (m.axis < 3)
        | SetterKind.rotation => decide (m.axis < 4)) = true)
    (hvals : ∀ m ∈ ms, m.column < values.length ∧ value_ok (values.getD m.column "") = true) :
    ∀ L b, lookup L t.rigid_bodies = some b →
      ∃ b', lookup L (process_mappings t ms ((n : Nat) : Int) values).1.rigid_bodies
          = some b' ∧
        (∀ i, i ≠ n → b'.positions.getD i none = b.positions.getD i none ∧
          b'.rotations.getD i none = b.rotations.getD i none) ∧
        slot_rel (live_writes ms L SetterKind.position values) 3
          (b.positions.getD n none) (b'.positions.getD n none) ∧
        slot_rel (live_writes ms L SetterKind.rotation values) 4
          (b.rotations.getD n none) (b'.rotations.getD n none) := by
  induction ms generalizing t with
  | nil =>
    intro L b hb
    exact ⟨b, hb, fun i hi => ⟨rfl, rfl⟩, slot_rel_nil 3 _, slot_rel_nil 4 _⟩
  | cons m rest ih =>
    intro L b hb
    have hfr : 0 ≤ pyIdx (n + 1) ((n : Nat) : Int)
        ∧ (pyIdx (n + 1) ((n : Nat) : Int)).toNat < n + 1 := by
      refine ⟨?_, ?_⟩
      · rw [pyIdx_natCast]
        exact Int.natCast_nonneg n
      · rw [pyIdx_natCast_toNat]
        omega
    have hA2 := apply_mapping_ok_of hlen hvec (htg m (List.mem_cons_self _ _))
      (hvals m (List.mem_cons_self _ _)).1 (hvals m (List.mem_cons_self _ _)).2
      (hax m (List.mem_cons_self _ _)) hfr
    cases hA : apply_mapping t m ((n : Nat) : Int) values with
    | mk t1 e =>
      cases e with
      | some e0 =>
        exfalso
        rw [hA] at hA2
        exact Option.noConfusion hA2
      | none =>
        have hA' : apply_mapping t m ((n : Nat) : Int) values = (t1, none) := hA
        have hP : process_mappings t (m :: rest) ((n : Nat) : Int) values
            = process_mappings t1 rest ((n : Nat) : Int) values := by
          simp only [process_mappings]
          rw [hA]
        rw [hP]
        obtain ⟨b1, hb1, hpres1, hsp1, hsr1⟩ := apply_mapping_char hA' hlen L b hb
        have hlen1 : bodies_len t1 (n + 1) := apply_mapping_ok_bodies hA' hlen
        have hvec1 : vecs_ok t1 := apply_mapping_ok_vecs hA' hvec
        have htg1 : ∀ m2 ∈ rest, (lookup m2.target t1.rigid_bodies).isSome = true := by
          intro m2 hm2
          rw [show t1 = (apply_mapping t m ((n : Nat) : Int) values).1 from by rw [hA],
            apply_mapping_lookup_isSome]
          exact htg m2 (List.mem_cons_of_mem _ hm2)
        obtain ⟨b', hb', hpres2, hsp2, hsr2⟩ := ih hlen1 hvec1 htg1
          (fun m2 hm2 => hax m2 (List.mem_cons_of_mem _ hm2))
          (fun m2 hm2 => hvals m2 (List.mem_cons_of_mem _ hm2)) L b1 hb1
        refine ⟨b', hb', ?_, ?_, ?_⟩
        · intro i hi
          obtain ⟨hp2, hr2⟩ := hpres2 i hi
          obtain ⟨hp1, hr1⟩ := hpres1 i hi
          exact ⟨hp2.trans hp1, hr2.trans hr1⟩
        · rw [live_writes_cons]
          exact slot_rel_trans hsp1 hsp2
        · rw [live_writes_cons]
          exact slot_rel_trans hsr1 hsr2

/-- One data row whose declared frame number equals the physical frame count
`n`: every body gains exactly one new slot `n`, absent unless the row carries
a non-empty value for it, with unwritten axes defaulted to `0`. -/
theorem process_row_char {t : Take} {row : List String} {n : Nat}
    (hlen : bodies_len t n) (hvec : vecs_ok t)
    (htg : ∀ m ∈ t.column_map, (lookup m.target t.rigid_bodies).isSome = true)
    (hax : ∀ m ∈ t.column_map, (match m.kind with
        | SetterKind.position => decide (m.axis < 3)
        | SetterKind.rotation => decide (m.axis < 4)) = true)
    (hrow : row_ok t.column_map n row = true)
    (hal : pyInt (row.getD 0 "") = Except.ok ((n : Nat) : Int)) :
    ∀ L b, lookup L t.rigid_bodies = some b →
      ∃ b1, lookup L (process_row t row).1.rigid_bodies = some b1 ∧
        (∀ i, i ≠ n → b1.positions.getD i none = b.positions.getD i none ∧
          b1.rotations.getD i none = b.rotations.getD i none) ∧
        slot_rel (live_writes t.column_map L SetterKind.position (row.drop 2)) 3
          none (b1.positions.getD n none) ∧
        slot_rel (live_writes t.column_map L SetterKind.rotation (row.drop 2)) 4
          none (b1.rotations.getD n none) := by
  unfold row_ok at hrow
  rw [Bool.and_eq_true, Bool.and_eq_true, Bool.and_eq_true] at hrow
  obtain ⟨⟨⟨hl2b, hfnb⟩, hflb⟩, hvalsb⟩ := hrow
  have hl2 : 2 ≤ row.length := of_decide_eq_true hl2b
  obtain ⟨c0, c1, vrest, rfl⟩ : ∃ c0 c1 vrest, row = c0 :: c1 :: vrest := by
    cases row with
    | nil => simp at hl2
    | cons a r =>
      cases r with
      | nil => simp at hl2
      | cons b r2 => exact ⟨a, b, r2, rfl⟩
  obtain ⟨q, hq⟩ := toOption_isSome_exists hflb
  have hg0 : pyGet (c0 :: c1 :: vrest) (0 : Int) = Except.ok c0 := by
    rw [show ((0 : Int)) = ((0 : Nat) : Int) from rfl,
      pyGet_nat_lt (c0 :: c1 :: vrest) 0 (by simp)]
    rfl
  have hg1 : pyGet (c0 :: c1 :: vrest) (1 : Int) = Except.ok c1 := by
    rw [show ((1 : Int)) = ((1 : Nat) : Int) from rfl,
      pyGet_nat_lt (c0 :: c1 :: vrest) 1 (by simp)]
    rfl
  have hn' : pyInt c0 = Except.ok ((n : Nat) : Int) := hal
  have hq' : pyFloat c1 = Except.ok q := hq
  unfold process_row
  simp only [hg0, hn', hg1, hq']
  intro L b hb
  have hlenb := hlen _ (lookup_mem hb)
  have hbA : lookup L
      (t.rigid_bodies.map (fun p => (p.1, p.2.add_frame q))) = some (b.add_frame q) := by
    rw [lookup_map_add_frame, hb]
    rfl
  have hvalsA : ∀ m ∈ t.column_map,
      m.column < ((c0 :: c1 :: vrest).drop 2).length ∧
        value_ok (((c0 :: c1 :: vrest).drop 2).getD m.column "") = true := by
    intro m hm
    have := List.all_eq_true.mp hvalsb m hm
    rw [Bool.and_eq_true] at this
    exact ⟨of_decide_eq_true this.1, this.2⟩
  have htgA : ∀ m ∈ t.column_map,
      (lookup m.target
        ({ t with rigid_bodies :=
            t.rigid_bodies.map (fun p => (p.1, p.2.add_frame q)) } : Take).rigid_bodies).isSome
        = true := by
    intro m hm
    show (lookup m.target
      (t.rigid_bodies.map (fun p => (p.1, p.2.add_frame q)))).isSome = true
    rw [lookup_add_frame_isSome]
    exact htg m hm
  obtain ⟨b1, hb1, hpres, hsp, hsr⟩ :=
    process_mappings_char (add_frame_bodies_len hlen) (add_frame_vecs hvec)
      htgA hax hvalsA L (b.add_frame q) hbA
  have hbasep : (b.add_frame q).positions.getD n none = none := by
    show (b.positions ++ [none]).getD n none = none
    rw [← hlenb.1]
    exact getD_append_len b.positions none none
  have hbaser : (b.add_frame q).rotations.getD n none = none := by
    show (b.rotations ++ [none]).getD n none = none
    rw [← hlenb.2.1]
    exact getD_append_len b.rotations none none
  refine ⟨b1, hb1, ?_, ?_, ?_⟩
  · intro i hi
    obtain ⟨hp, hr⟩ := hpres i hi
    constructor
    · rw [hp]
      show (b.positions ++ [none]).getD i none = b.positions.getD i none
      exact getD_append_single b.positions none none i (by rw [hlenb.1]; exact hi)
    · rw [hr]
      show (b.rotations ++ [none]).getD i none = b.rotations.getD i none
      exact getD_append_single b.rotations none none i (by rw [hlenb.2.1]; exact hi)
  · rw [hbasep] at hsp
    exact hsp
  · rw [hbaser] at hsr
    exact hsr

/-- The data loop never adds or removes a body (unconditionally, error or
not). -/
theorem read_data_lookup_isSome (t : Take) (rows : List (List String)) (k : String) :
    (lookup k ((read_data t rows).1).rigid_bodies).isSome
      = (lookup k t.rigid_bodies).isSome := by
  induction rows generalizing t with
  | nil => rfl
  | cons r rest ih =>
    simp only [read_data]
    cases hp : process_row t r with
    | mk t1 err =>
      have h1 : (lookup k t1.rigid_bodies).isSome = (lookup k t.rigid_bodies).isSome := by
        rw [show t1 = (process_row t r).1 from by rw [hp]]
        exact process_row_lookup_isSome t r k
      cases err with
      | some e => exact h1
      | none =>
        show (lookup k ((read_data t1 rest).1).rigid_bodies).isSome = _
        rw [ih t1, h1]

/-- Induction core for C2: running the data loop from `n` existing slots over
aligned rows leaves old slots unchanged and characterizes each new slot by
the live writes of its own row. -/
theorem read_data_char_aux {rows : List (List String)} {t : Take} {n : Nat}
    (hlen : bodies_len t n) (hvec : vecs_ok t)
    (htg : ∀ m ∈ t.column_map, (lookup m.target t.rigid_bodies).isSome = true)
    (hax : ∀ m ∈ t.column_map, (match m.kind with
        | SetterKind.position => decide (m.axis < 3)
        | SetterKind.rotation => decide (m.axis < 4)) = true)
    (hrow : ∀ k, ∀ hk : k < rows.length,
      row_ok t.column_map (n + k) (rows.get ⟨k, hk⟩) = true)
    (hal : ∀ k, ∀ hk : k < rows.length,
      pyInt ((rows.get ⟨k, hk⟩).getD 0 "") = Except.ok ((n + k : Nat) : Int)) :
    ∀ L b, lookup L t.rigid_bodies = some b →
      ∃ b', lookup L ((read_data t rows).1).rigid_bodies = some b' ∧
        (∀ i, i < n → b'.positions.getD i none = b.positions.getD i none ∧
          b'.rotations.getD i none = b.rotations.getD i none) ∧
        ∀ k, ∀ hk : k < rows.length,
          slot_rel (live_writes t.column_map L SetterKind.position
            ((rows.get ⟨k, hk⟩).drop 2)) 3 none (b'.positions.getD (n + k) none) ∧
          slot_rel (live_writes t.column_map L SetterKind.rotation
            ((rows.get ⟨k, hk⟩).drop 2)) 4 none (b'.rotations.getD (n + k) none) := by
  induction rows generalizing t n with
  | nil =>
    intro L b hb
    refine ⟨b, hb, fun i hi => ⟨rfl, rfl⟩, ?_⟩
    intro k hk
    exact absurd hk (Nat.not_lt_zero k)
  | cons r rest ih =>
    intro L b hb
    have hrow0 : row_ok t.column_map n r = true := by
      have := hrow 0 (by simp)
      simpa using this
    have hal0 : pyInt (r.getD 0 "") = Except.ok ((n : Nat) : Int) := by
      have := hal 0 (by simp)
      simpa using this
    have hps := process_row_ok_of hlen hvec htg hax hrow0
    cases hp : process_row t r with
    | mk t1 err =>
      cases err with
      | some e =>
        exfalso
        rw [hp] at hps
        exact Option.noConfusion hps
      | none =>
        have hp' : process_row t r = (t1, none) := hp
        have hcm : t1.column_map = t.column_map := by
          rw [show t1 = (process_row t r).1 from by rw [hp]]
          exact process_row_fst_column_map t r
        have hred : read_data t (r :: rest) = read_data t1 rest := by
          simp only [read_data]
          rw [hp]
        rw [hred]
        obtain ⟨b1, hb1, hpres1, hsp1, hsr1⟩ :=
          process_row_char hlen hvec htg hax hrow0 hal0 L b hb
        rw [hp'] at hb1
        have hlen1 : bodies_len t1 (n + 1) := process_row_ok_bodies hp' hlen
        have hvec1 : vecs_ok t1 := process_row_ok_vecs hp' hvec
        have htg1 : ∀ m ∈ t1.column_map, (lookup m.target t1.rigid_bodies).isSome = true := by
          intro m hm
          rw [hcm] at hm
          rw [show t1 = (process_row t r).1 from by rw [hp], process_row_lookup_isSome]
          exact htg m hm
        have hax1 : ∀ m ∈ t1.column_map, (match m.kind with
            | SetterKind.position => decide (m.axis < 3)
            | SetterKind.rotation => decide (m.axis < 4)) = true := by
          intro m hm
          rw [hcm] at hm
          exact hax m hm
        have hrow1 : ∀ k, ∀ hk : k < rest.length,
            row_ok t1.column_map (n + 1 + k) (rest.get ⟨k, hk⟩) = true := by
          intro k hk
          have hk1 : k + 1 < (r :: rest).length := by
            simp only [List.length_cons]
            omega
          have := hrow (k + 1) hk1
          rw [hcm]
          have harith : n + (k + 1) = n + 1 + k := by omega
          rw [harith] at this
          exact this
        have hal1 : ∀ k, ∀ hk : k < rest.length,
            pyInt ((rest.get ⟨k, hk⟩).getD 0 "") = Except.ok ((n + 1 + k : Nat) : Int) := by
          intro k hk
          have hk1 : k + 1 < (r :: rest).length := by
            simp only [List.length_cons]
            omega
          have := hal (k + 1) hk1
          have harith : n + (k + 1) = n + 1 + k := by omega
          rw [harith] at this
          exact this
        obtain ⟨b', hb', hpres2, hchar2⟩ :=
          ih hlen1 hvec1 htg1 hax1 hrow1 hal1 L b1 hb1
        refine ⟨b', hb', ?_, ?_⟩
        · intro i hi
          obtain ⟨hp2, hr2⟩ := hpres2 i (by omega)
          obtain ⟨hp1, hr1⟩ := hpres1 i (by omega)
          exact ⟨hp2.trans hp1, hr2.trans hr1⟩
        · intro k hk
          cases k with
          | zero =>
            obtain ⟨hp2, hr2⟩ := hpres2 n (by omega)
            constructor
            · show slot_rel (live_writes t.column_map L SetterKind.position (r.drop 2)) 3
                none (b'.positions.getD (n + 0) none)
              rw [show n + 0 = n from rfl, hp2]
              exact hsp1
            · show slot_rel (live_writes t.column_map L SetterKind.rotation (r.drop 2)) 4
                none (b'.rotations.getD (n + 0) none)
              rw [show n + 0 = n from rfl, hr2]
              exact hsr1
          | succ k2 =>
            have hk2 : k2 < rest.length := by
              simp only [List.length_cons] at hk
              omega
            have := hchar2 k2 hk2
            rw [hcm] at this
            have harith : n + 1 + k2 = n + (k2 + 1) := by omega
            rw [harith] at this
            exact this

/-- C2: for every body and frame of an aligned, well-formed data section
(frame numbers matching the physical row order, as produced by Motive), the
position (resp. rotation) entry for that frame is present (non-`none`) iff at
least one mapping for that body and vector kind carried a non-empty value
string in that frame's row; when present, the vector has length 3 (resp. 4)
and every axis that no non-empty value targeted holds the default `0`; in
particular when every mapped value is empty the entry stays `none`, not a
zero vector. -/
theorem slot_presence_iff_nonempty_write (t : Take) (rows : List (List String))
    (hlen : bodies_len t 0) (hvec : vecs_ok t)
    (htg : targets_ok t.column_map t = true)
    (hax : axes_ok t.column_map = true)
    (hrow : ∀ k, ∀ hk : k < rows.length,
      row_ok t.column_map k (rows.get ⟨k, hk⟩) = true)
    (hal : ∀ k, ∀ hk : k < rows.length,
      pyInt ((rows.get ⟨k, hk⟩).getD 0 "") = Except.ok (k : Int)) :
    ∀ L b, lookup L ((read_data t rows).1).rigid_bodies = some b →
      ∀ k, ∀ hk : k < rows.length,
        ((b.positions.getD k none).isSome = true ↔
          live_writes t.column_map L SetterKind.position
            ((rows.get ⟨k, hk⟩).drop 2) ≠ []) ∧
        (∀ v, b.positions.getD k none = some v → v.length = 3 ∧
          ∀ ax, (∀ m ∈ live_writes t.column_map L SetterKind.position
              ((rows.get ⟨k, hk⟩).drop 2), m.axis ≠ ax) → v.getD ax 0 = 0) ∧
        ((b.rotations.getD k none).isSome = true ↔
          live_writes t.column_map L SetterKind.rotation
            ((rows.get ⟨k, hk⟩).drop 2) ≠ []) ∧
        (∀ v, b.rotations.getD k none = some v → v.length = 4 ∧
          ∀ ax, (∀ m ∈ live_writes t.column_map L SetterKind.rotation
              ((rows.get ⟨k, hk⟩).drop 2), m.axis ≠ ax) → v.getD ax 0 = 0) := by
  intro L b hb
  have htg' : ∀ m ∈ t.column_map, (lookup m.target t.rigid_bodies).isSome = true :=
    fun m hm => List.all_eq_true.mp htg m hm
  have hax' : ∀ m ∈ t.column_map, (match m.kind with
      | SetterKind.position => decide (m.axis < 3)
      | SetterKind.rotation => decide (m.axis < 4)) = true :=
    fun m hm => List.all_eq_true.mp hax m hm
  have hrow' : ∀ k, ∀ hk : k < rows.length,
      row_ok t.column_map (0 + k) (rows.get ⟨k, hk⟩) = true := by
    intro k hk
    rw [Nat.zero_add]
    exact hrow k hk
  have hal' : ∀ k, ∀ hk : k < rows.length,
      pyInt ((rows.get ⟨k, hk⟩).getD 0 "") = Except.ok ((0 + k : Nat) : Int) := by
    intro k hk
    rw [Nat.zero_add]
    exact hal k hk
  have hS : (lookup L t.rigid_bodies).isSome = true := by
    rw [← read_data_lookup_isSome t rows L, hb]
    rfl
  obtain ⟨b0, hb0⟩ := Option.isSome_iff_exists.mp hS
  obtain ⟨b', hb', hpres, hchar⟩ :=
    read_data_char_aux (n := 0) hlen hvec htg' hax' hrow' hal' L b0 hb0
  have hbb : b' = b := by
    rw [hb'] at hb
    exact Option.some.inj hb
  subst hbb
  intro k hk
  have hck := hchar k hk
  rw [Nat.zero_add] at hck
  obtain ⟨hsp, hsr⟩ := hck
  obtain ⟨hsp1, hsp2⟩ := hsp
  obtain ⟨hsr1, hsr2⟩ := hsr
  refine ⟨?_, ?_, ?_, ?_⟩
  · rw [hsp1]
    simp
  · intro v hv
    have h := hsp2 (fun v0 hv0 => Option.noConfusion hv0) v hv
    refine ⟨h.1, ?_⟩
    intro ax hax2
    simpa using h.2 ax hax2
  · rw [hsr1]
    simp
  · intro v hv
    have h := hsr2 (fun v0 hv0 => Option.noConfusion hv0) v hv
    refine ⟨h.1, ?_⟩
    intro ax hax2
    simpa using h.2 ax hax2

/-- Two aligned data rows for the C2 witness: frame 0 writes `1.5` to the one
mapped position axis, frame 1 carries the empty string for it. -/
def c2Rows : List (List String) := [["0", "0.0", "1.5"], ["1", "1.0", ""]]

/-- Witness for C2 at a concrete take and rows: all hypotheses hold and the
characterization follows by applying the theorem. -/
theorem slot_presence_iff_nonempty_write_witness :
    (bodies_len c10Take 0 ∧ vecs_ok c10Take ∧
      targets_ok c10Take.column_map c10Take = true ∧
      axes_ok c10Take.column_map = true ∧
      (∀ k, ∀ hk : k < c2Rows.length,
        row_ok c10Take.column_map k (c2Rows.get ⟨k, hk⟩) = true) ∧
      (∀ k, ∀ hk : k < c2Rows.length,
        pyInt ((c2Rows.get ⟨k, hk⟩).getD 0 "") = Except.ok (k : Int))) ∧
    (∀ L b, lookup L ((read_data c10Take c2Rows).1).rigid_bodies = some b →
      ∀ k, ∀ hk : k < c2Rows.length,
        ((b.positions.getD k none).isSome = true ↔
          live_writes c10Take.column_map L SetterKind.position
            ((c2Rows.get ⟨k, hk⟩).drop 2) ≠ []) ∧
        (∀ v, b.positions.getD k none = some v → v.length = 3 ∧
          ∀ ax, (∀ m ∈ live_writes c10Take.column_map L SetterKind.position
              ((c2Rows.get ⟨k, hk⟩).drop 2), m.axis ≠ ax) → v.getD ax 0 = 0) ∧
        ((b.rotations.getD k none).isSome = true ↔
          live_writes c10Take.column_map L SetterKind.rotation
            ((c2Rows.get ⟨k, hk⟩).drop 2) ≠ []) ∧
        (∀ v, b.rotations.getD k none = some v → v.length = 4 ∧
          ∀ ax, (∀ m ∈ live_writes c10Take.column_map L SetterKind.rotation
              ((c2Rows.get ⟨k, hk⟩).drop 2), m.axis ≠ ax) → v.getD ax 0 = 0)) :=
  ⟨⟨by intro p hp; rcases List.mem_singleton.mp hp with rfl; exact ⟨rfl, rfl, rfl⟩,
    by
      intro p hp
      rcases List.mem_singleton.mp hp with rfl
      refine ⟨?_, ?_⟩ <;> intro o ho <;> exact absurd ho (List.not_mem_nil o),
    by decide, by decide, by decide, by decide⟩,
    slot_presence_iff_nonempty_write c10Take c2Rows
      (by intro p hp; rcases List.mem_singleton.mp hp with rfl; exact ⟨rfl, rfl, rfl⟩)
      (by
        intro p hp
        rcases List.mem_singleton.mp hp with rfl
        refine ⟨?_, ?_⟩ <;> intro o ho <;> exact absurd ho (List.not_mem_nil o))
      (by decide) (by decide) (by decide) (by decide)⟩

end Optitrack
